import Mathlib

/-!
# Milk subscription service (`src/index.js`)

A shallow embedding of the three Express handlers of `src/index.js`
(`POST /subscribe`, `GET /subscriptions`, `POST /pause`) and of the helper
`getNextDeliveryDate`, together with the part of the ECMAScript value
semantics the handlers rely on: truthiness, `===`, `ToPrimitive`, `ToNumber`,
the relational operators, `+`, and the `Date` object (`new Date`, `getDate`,
`setDate`, `getTime`, `toISOString`).

* A request body is given by the three fields each handler destructures from
  `req.body`; a field that is absent is `JValue.undefined`.
* The module-level array `subscriptions` is passed explicitly: every handler
  maps the array before the call to a response and the array after the call.
* An exception that escapes a handler is the response `uncaught`.
* What belongs to the JavaScript host and not to the repository (the date
  parser, the string-to-number conversion, the string conversion of arrays and
  objects, the local time zone) is a parameter `Host`; general theorems hold
  for every host.  The offset of local time from UTC is a function of the
  instant, so a host may have daylight-saving transitions.
* Finite numbers are exact rationals.  The handlers only combine day counts and
  millisecond instants, where double arithmetic on integers is exact; IEEE
  rounding of non-integer operands is not modelled.
-/

namespace MilkSubscription

/-! ## Numbers -/

/-- ECMAScript Number values: the finite ones, NaN, and the two infinities. -/
inductive JSNum where
  | fin (q : ℚ)
  | nan
  | posInf
  | negInf
  deriving DecidableEq

namespace JSNum

/-- The relational operator `a < b` on numbers; any comparison with NaN is false. -/
def lt : JSNum → JSNum → Bool
  | fin a, fin b => decide (a < b)
  | fin _, posInf => true
  | negInf, fin _ => true
  | negInf, posInf => true
  | _, _ => false

/-- Number addition `a + b`. -/
def add : JSNum → JSNum → JSNum
  | fin a, fin b => fin (a + b)
  | nan, _ => nan
  | _, nan => nan
  | posInf, negInf => nan
  | negInf, posInf => nan
  | posInf, _ => posInf
  | negInf, _ => negInf
  | fin _, posInf => posInf
  | fin _, negInf => negInf

/-- An infinity of the sign of `q` times the sign flag; NaN when `q` is zero. -/
def infTimes (negative : Bool) (q : ℚ) : JSNum :=
  if q = 0 then nan
  else if (decide (q < 0)) = negative then posInf else negInf

/-- Number multiplication `a * b`. -/
def mul : JSNum → JSNum → JSNum
  | fin a, fin b => fin (a * b)
  | nan, _ => nan
  | _, nan => nan
  | posInf, fin b => infTimes false b
  | negInf, fin b => infTimes true b
  | fin a, posInf => infTimes false a
  | fin a, negInf => infTimes true a
  | posInf, posInf => posInf
  | negInf, negInf => posInf
  | posInf, negInf => negInf
  | negInf, posInf => negInf

/-- Truthiness of a number: `0` and NaN are falsy. -/
def truthy : JSNum → Bool
  | fin q => decide (q ≠ 0)
  | nan => false
  | _ => true

/-- Strict equality `a === b` on numbers: NaN differs from everything. -/
def strictEq : JSNum → JSNum → Bool
  | fin a, fin b => decide (a = b)
  | posInf, posInf => true
  | negInf, negInf => true
  | _, _ => false

/-- The global `isNaN` on a number. -/
def isNaN : JSNum → Bool
  | nan => true
  | _ => false

end JSNum

/-- Truncation toward zero of a finite number (`ToIntegerOrInfinity`). -/
def truncate (q : ℚ) : Int :=
  if 0 ≤ q then ⌊q⌋ else ⌈q⌉

/-! ## Values of a parsed JSON body -/

/-- The values `express.json()` can put into a field of `req.body`, and
`undefined` for a field that is absent. -/
inductive JValue where
  | undefined
  | null
  | bool (b : Bool)
  | num (n : JSNum)
  | str (s : String)
  | arr (items : List JValue)
  | obj (fields : List (String × JValue))

mutual
/-- Decidable equality of JSON values. -/
def JValue.decEq : (a b : JValue) → Decidable (a = b)
  | .undefined, .undefined => isTrue rfl
  | .null, .null => isTrue rfl
  | .bool a, .bool b =>
    if h : a = b then isTrue (by rw [h]) else isFalse (by intro e; cases e; exact h rfl)
  | .num a, .num b =>
    if h : a = b then isTrue (by rw [h]) else isFalse (by intro e; cases e; exact h rfl)
  | .str a, .str b =>
    if h : a = b then isTrue (by rw [h]) else isFalse (by intro e; cases e; exact h rfl)
  | .arr a, .arr b =>
    match JValue.decEqItems a b with
    | isTrue h => isTrue (by rw [h])
    | isFalse h => isFalse (by intro e; cases e; exact h rfl)
  | .obj a, .obj b =>
    match JValue.decEqFields a b with
    | isTrue h => isTrue (by rw [h])
    | isFalse h => isFalse (by intro e; cases e; exact h rfl)
  | .undefined, .null => isFalse nofun
  | .undefined, .bool _ => isFalse nofun
  | .undefined, .num _ => isFalse nofun
  | .undefined, .str _ => isFalse nofun
  | .undefined, .arr _ => isFalse nofun
  | .undefined, .obj _ => isFalse nofun
  | .null, .undefined => isFalse nofun
  | .null, .bool _ => isFalse nofun
  | .null, .num _ => isFalse nofun
  | .null, .str _ => isFalse nofun
  | .null, .arr _ => isFalse nofun
  | .null, .obj _ => isFalse nofun
  | .bool _, .undefined => isFalse nofun
  | .bool _, .null => isFalse nofun
  | .bool _, .num _ => isFalse nofun
  | .bool _, .str _ => isFalse nofun
  | .bool _, .arr _ => isFalse nofun
  | .bool _, .obj _ => isFalse nofun
  | .num _, .undefined => isFalse nofun
  | .num _, .null => isFalse nofun
  | .num _, .bool _ => isFalse nofun
  | .num _, .str _ => isFalse nofun
  | .num _, .arr _ => isFalse nofun
  | .num _, .obj _ => isFalse nofun
  | .str _, .undefined => isFalse nofun
  | .str _, .null => isFalse nofun
  | .str _, .bool _ => isFalse nofun
  | .str _, .num _ => isFalse nofun
  | .str _, .arr _ => isFalse nofun
  | .str _, .obj _ => isFalse nofun
  | .arr _, .undefined => isFalse nofun
  | .arr _, .null => isFalse nofun
  | .arr _, .bool _ => isFalse nofun
  | .arr _, .num _ => isFalse nofun
  | .arr _, .str _ => isFalse nofun
  | .arr _, .obj _ => isFalse nofun
  | .obj _, .undefined => isFalse nofun
  | .obj _, .null => isFalse nofun
  | .obj _, .bool _ => isFalse nofun
  | .obj _, .num _ => isFalse nofun
  | .obj _, .str _ => isFalse nofun
  | .obj _, .arr _ => isFalse nofun
/-- Decidable equality of lists of JSON values. -/
def JValue.decEqItems : (a b : List JValue) → Decidable (a = b)
  | [], [] => isTrue rfl
  | [], _ :: _ => isFalse nofun
  | _ :: _, [] => isFalse nofun
  | x :: xs, y :: ys =>
    match JValue.decEq x y, JValue.decEqItems xs ys with
    | isTrue h1, isTrue h2 => isTrue (by rw [h1, h2])
    | isFalse h1, _ => isFalse (by intro e; cases e; exact h1 rfl)
    | _, isFalse h2 => isFalse (by intro e; cases e; exact h2 rfl)
/-- Decidable equality of the field lists of JSON objects. -/
def JValue.decEqFields : (a b : List (String × JValue)) → Decidable (a = b)
  | [], [] => isTrue rfl
  | [], _ :: _ => isFalse nofun
  | _ :: _, [] => isFalse nofun
  | (k, x) :: xs, (l, y) :: ys =>
    if hk : k = l then
      match JValue.decEq x y, JValue.decEqFields xs ys with
      | isTrue h1, isTrue h2 => isTrue (by rw [hk, h1, h2])
      | isFalse h1, _ => isFalse (by intro e; cases e; exact h1 rfl)
      | _, isFalse h2 => isFalse (by intro e; cases e; exact h2 rfl)
    else isFalse (by intro e; cases e; exact hk rfl)
end

instance : DecidableEq JValue := JValue.decEq

namespace JValue

/-- Truthiness (`!v` is its negation): `undefined`, `null`, `false`, `0`, NaN
and the empty string are falsy; arrays and objects are truthy. -/
def truthy : JValue → Bool
  | undefined => false
  | null => false
  | bool b => b
  | num n => n.truthy
  | str s => decide (s ≠ "")
  | arr _ => true
  | obj _ => true

/-- Strict equality `stored === fresh` between a value kept in `subscriptions`
and a value of the current request body.  Primitives compare by value.  An
array or object of the current body was created by parsing this request, so it
is a different reference from anything stored before: the comparison is false. -/
def strictEq : JValue → JValue → Bool
  | undefined, undefined => true
  | null, null => true
  | bool a, bool b => decide (a = b)
  | num a, num b => a.strictEq b
  | str a, str b => decide (a = b)
  | _, _ => false

/-- Whether the value is an array or an object. -/
def isObject : JValue → Bool
  | arr _ => true
  | obj _ => true
  | _ => false

end JValue

/-! ## The host -/

/-- What the handlers take from the JavaScript host.
* `dateParse s` is `Date.parse(s)`: a time value or NaN;
* `stringToNumber s` is `ToNumber` on a string;
* `objectToPrimitive v` is `ToPrimitive` on an array or object: the string it
  converts to, or `none` when the conversion raises a `TypeError`;
* `localTZA t isUTC` is the local time zone adjustment in milliseconds,
  `LocalTZA(t, isUTC)`: the offset of local time from UTC in force at the UTC
  instant `t` when `isUTC` is true, and the offset that applies to the local
  time `t` when `isUTC` is false.  It changes at a daylight-saving transition. -/
structure Host where
  dateParse : String → JSNum
  stringToNumber : String → JSNum
  objectToPrimitive : JValue → Option String
  localTZA : Int → Bool → Int

/-- The exceptions the handlers can raise. -/
inductive JSError where
  | typeError
  | rangeError
  deriving DecidableEq

deriving instance DecidableEq for Except

/-- `ToPrimitive(v)`: a primitive is returned as it is, an array or object
through the host. -/
def toPrimitive (h : Host) (v : JValue) : Except JSError JValue :=
  if v.isObject then
    match h.objectToPrimitive v with
    | some s => .ok (.str s)
    | none => .error .typeError
  else .ok v

/-- `ToNumber` on a primitive value. -/
def primToNumber (h : Host) : JValue → JSNum
  | .undefined => .nan
  | .null => .fin 0
  | .bool b => if b then .fin 1 else .fin 0
  | .num n => n
  | .str s => h.stringToNumber s
  | _ => .nan

/-- `ToNumber(v)`: `ToPrimitive` first, then the conversion of the primitive. -/
def toNumber (h : Host) (v : JValue) : Except JSError JSNum :=
  (toPrimitive h v).map (primToNumber h)

/-! ## Time values and the ECMAScript calendar -/

/-- The time value of a `Date` object: milliseconds since the epoch, or `none`
for NaN (an invalid date). -/
abbrev TimeValue := Option Int

/-- Milliseconds per day. -/
def msPerDay : Int := 86400000

/-- The largest magnitude of a time value, 8.64e15 ms. -/
def maxTime : Int := 8640000000000000

/-- `TimeClip`: NaN for a non-finite number or one beyond `maxTime` in
magnitude, otherwise the number truncated to an integer. -/
def timeClip : JSNum → TimeValue
  | .fin q => if |q| ≤ (maxTime : ℚ) then some (truncate q) else none
  | _ => none

/-- `Day(t)`: the day number of a time value. -/
def day (t : Int) : Int := t / msPerDay

/-- `TimeWithinDay(t)`. -/
def timeWithinDay (t : Int) : Int := t % msPerDay

/-- `DaysInYear(y)`. -/
def daysInYear (y : Int) : Int :=
  if y % 4 ≠ 0 then 365
  else if y % 100 ≠ 0 then 366
  else if y % 400 ≠ 0 then 365
  else 366

/-- `DayFromYear(y)`: the day number of the first day of year `y`. -/
def dayFromYear (y : Int) : Int :=
  365 * (y - 1970) + (y - 1969) / 4 - (y - 1901) / 100 + (y - 1601) / 400

/-- The year containing day number `d`: the largest `y` with
`dayFromYear y ≤ d`, found from an estimate that is off by at most one. -/
def yearFromDay (d : Int) : Int :=
  let y := 1970 + d * 400 / 146097
  if d < dayFromYear y then y - 1
  else if dayFromYear (y + 1) ≤ d then y + 1
  else y

/-- `YearFromTime(t)`. -/
def yearFromTime (t : Int) : Int := yearFromDay (day t)

/-- `InLeapYear` of a year: 1 in a leap year, 0 otherwise. -/
def leapDay (y : Int) : Int := if daysInYear y = 366 then 1 else 0

/-- `DayWithinYear(t)`. -/
def dayWithinYear (t : Int) : Int := day t - dayFromYear (yearFromTime t)

/-- The number of days of a year that precede its month `m` (0 = January). -/
def daysBeforeMonth (leap : Int) (m : Int) : Int :=
  if m = 0 then 0
  else if m = 1 then 31
  else if m = 2 then 59 + leap
  else if m = 3 then 90 + leap
  else if m = 4 then 120 + leap
  else if m = 5 then 151 + leap
  else if m = 6 then 181 + leap
  else if m = 7 then 212 + leap
  else if m = 8 then 243 + leap
  else if m = 9 then 273 + leap
  else if m = 10 then 304 + leap
  else 334 + leap

/-- The month (0 = January, ..., 11 = December) of day `d` within a year,
`leap` being 1 in a leap year and 0 otherwise: the table of `MonthFromTime`. -/
def monthOfDay (leap d : Int) : Int :=
  if d < 31 then 0
  else if d < 59 + leap then 1
  else if d < 90 + leap then 2
  else if d < 120 + leap then 3
  else if d < 151 + leap then 4
  else if d < 181 + leap then 5
  else if d < 212 + leap then 6
  else if d < 243 + leap then 7
  else if d < 273 + leap then 8
  else if d < 304 + leap then 9
  else if d < 334 + leap then 10
  else 11

/-- `MonthFromTime(t)`. -/
def monthFromTime (t : Int) : Int :=
  monthOfDay (leapDay (yearFromTime t)) (dayWithinYear t)

/-- `DateFromTime(t)`: the day of the month, from 1. -/
def dateFromTime (t : Int) : Int :=
  dayWithinYear t - daysBeforeMonth (leapDay (yearFromTime t)) (monthFromTime t) + 1

/-- `MakeDay(year, month, date)` for an integral year and month: NaN when
`date` is not finite, otherwise the day number of the first of the month plus
the truncated `date` minus one. -/
def makeDay (year month : Int) (date : JSNum) : Option Int :=
  match date with
  | .fin q =>
    let ym := year + month / 12
    let mn := month % 12
    some (dayFromYear ym + daysBeforeMonth (leapDay ym) mn + truncate q - 1)
  | _ => none

/-- `MakeDate(day, time)`. -/
def makeDate (d : Option Int) (time : Int) : Option Int :=
  d.map (fun n => n * msPerDay + time)

/-- `LocalTime(t) = t + LocalTZA(t, true)`. -/
def localTime (h : Host) (t : Int) : Int := t + h.localTZA t true

/-- `UTC(t) = t - LocalTZA(t, false)`. -/
def utc (h : Host) (t : Int) : Int := t - h.localTZA t false

/-! ## The `Date` object -/

/-- The constructor `new Date(value)` on a body value: `ToPrimitive`, then the
host parser for a string and `ToNumber` for anything else, then `TimeClip`. -/
def newDate (h : Host) (value : JValue) : Except JSError TimeValue :=
  match toPrimitive h value with
  | .error e => .error e
  | .ok (.str s) => .ok (timeClip (h.dateParse s))
  | .ok v => .ok (timeClip (primToNumber h v))

/-- The constructor `new Date(n)` on a number. -/
def newDateOfNumber (n : JSNum) : TimeValue := timeClip n

/-- `isNaN(date)` on a `Date` object. -/
def isInvalid (d : TimeValue) : Bool := d.isNone

/-- The method `getTime()`. -/
def getTime : TimeValue → JSNum
  | some t => .fin t
  | none => .nan

/-- The method `getDate()`: the local day of the month, NaN on an invalid date. -/
def getDate (h : Host) : TimeValue → JSNum
  | some t => .fin (dateFromTime (localTime h t))
  | none => .nan

/-- The method `setDate(dt)`, given the number `dt`; the result is the new
time value of the receiver.  An invalid date stays invalid. -/
def setDate (h : Host) (d : TimeValue) (dt : JSNum) : TimeValue :=
  match d with
  | none => none
  | some t =>
    let lt := localTime h t
    match makeDate (makeDay (yearFromTime lt) (monthFromTime lt) dt) (timeWithinDay lt) with
    | some newDate => timeClip (.fin (utc h newDate))
    | none => none

/-- The method `toISOString()`: raises a `RangeError` on an invalid date.  The
string is represented by the instant it denotes. -/
def toISOString : TimeValue → Except JSError Int
  | some t => .ok t
  | none => .error .rangeError

/-- `ToString` of a result of `getDate()`: the decimals of the day of the
month, and "NaN" for NaN. -/
def dayString : JSNum → String
  | .fin q => toString (truncate q)
  | _ => "NaN"

/-- The operator `n + v` with a result of `getDate()` on the left, as in
`newEndDate.getDate() + pauseDays`: string concatenation when `v` converts to a
string, number addition otherwise. -/
def plus (h : Host) (n : JSNum) (v : JValue) : Except JSError JValue :=
  match toPrimitive h v with
  | .error e => .error e
  | .ok (.str s) => .ok (.str (dayString n ++ s))
  | .ok p => .ok (.num (n.add (primToNumber h p)))

/-- The constructor `new Date(d)` on a `Date` object: a copy holding
`TimeClip` of its time value. -/
def dateCopy : TimeValue → TimeValue
  | some t => timeClip (.fin t)
  | none => none

/-! ## The store, the requests and the responses -/

/-- An element of the array `subscriptions` (`newSubscription`). -/
structure Subscription where
  userId : JValue
  product : String
  plan : JValue
  startDate : TimeValue
  endDate : TimeValue
  deliveryInterval : JSNum
  deriving DecidableEq

/-- The fields `POST /subscribe` destructures from `req.body`. -/
structure SubscribeBody where
  userId : JValue
  plan : JValue
  date : JValue
  deriving DecidableEq

/-- The fields `POST /pause` destructures from `req.body`. -/
structure PauseBody where
  userId : JValue
  pauseDate : JValue
  pauseDays : JValue
  deriving DecidableEq

/-- The response of `POST /subscribe`: status 201 with a message and the new
record, an error status with a message, or an exception that escaped. -/
inductive SubscribeResponse where
  | created (message : String) (subscription : Subscription)
  | failure (status : Nat) (message : String)
  | uncaught (error : JSError)
  deriving DecidableEq

/-- The body of a successful `POST /pause` response; the four ISO strings are
represented by their instants. -/
structure PauseProjection where
  userId : JValue
  plan : JValue
  pauseStartDate : Int
  pauseEndDate : Int
  newEndDate : Int
  nextDeliveryDate : Int
  deriving DecidableEq

/-- The response of `POST /pause`: status 200 with the projection, an error
status with a message, or an exception that escaped. -/
inductive PauseResponse where
  | ok (projection : PauseProjection)
  | failure (status : Nat) (message : String)
  | uncaught (error : JSError)
  deriving DecidableEq

/-- The HTTP status of a subscribe response; Express answers an escaped
exception with 500. -/
def SubscribeResponse.status : SubscribeResponse → Nat
  | .created _ _ => 201
  | .failure status _ => status
  | .uncaught _ => 500

/-- The HTTP status of a pause response. -/
def PauseResponse.status : PauseResponse → Nat
  | .ok _ => 200
  | .failure status _ => status
  | .uncaught _ => 500

/-! ## `src/index.js` -/

/-- The helper `getNextDeliveryDate(currentDate, deliveryInterval)`, lines 10-14. -/
def getNextDeliveryDate (h : Host) (currentDate : TimeValue) (deliveryInterval : JSNum) :
    TimeValue :=
  let nextDelivery := dateCopy currentDate
  setDate h nextDelivery ((getDate h currentDate).add deliveryInterval)

/-- The plan branch of lines 38-48: `(totalDays, deliveryInterval)` of a plan,
`none` for the final `else`. -/
def planTable (plan : JValue) : Option (JSNum × JSNum) :=
  if JValue.strictEq plan (.str "Elite") then some (.fin 24, .fin 2)
  else if JValue.strictEq plan (.str "Premium") then some (.fin 48, .fin 2)
  else none

/-- The handler of `POST /subscribe`, lines 17-65. -/
def subscribe (h : Host) (subscriptions : List Subscription) (body : SubscribeBody) :
    SubscribeResponse × List Subscription :=
  let userId := body.userId
  let plan := body.plan
  let date := body.date
  if !userId.truthy || !plan.truthy || !date.truthy then
    (.failure 400 "User ID, plan, and date are required.", subscriptions)
  else
    match subscriptions.find? (fun sub => sub.userId.strictEq userId) with
    | some _ => (.failure 400 "User already has an active subscription.", subscriptions)
    | none =>
      match newDate h date with
      | .error e => (.uncaught e, subscriptions)
      | .ok startDate =>
        if isInvalid startDate then
          (.failure 400 "Invalid date format.", subscriptions)
        else
          match planTable plan with
          | none => (.failure 400 "Invalid plan. Choose Elite or Premium.", subscriptions)
          | some (totalDays, deliveryInterval) =>
            let endDate := setDate h (dateCopy startDate) ((getDate h startDate).add totalDays)
            let newSubscription : Subscription :=
              ⟨userId, "Milk", plan, startDate, endDate, deliveryInterval⟩
            (.created "Subscription created successfully." newSubscription,
              subscriptions ++ [newSubscription])

/-- The handler of `GET /subscriptions`, lines 68-70: the array is the response. -/
def listSubscriptions (subscriptions : List Subscription) :
    List Subscription × List Subscription :=
  (subscriptions, subscriptions)

/-- The condition `pauseDays < 1 || pauseDays > 2` of line 91. -/
def pauseDaysOutOfRange (h : Host) (pauseDays : JValue) : Except JSError Bool := do
  let n ← toNumber h pauseDays
  return n.lt (.fin 1) || (JSNum.fin 2).lt n

/-- Lines 95-109 of `POST /pause`: the response body computed once all checks
have passed. -/
def pauseProjection (h : Host) (subscription : Subscription) (userId : JValue)
    (pauseStartDate : TimeValue) (pauseDays : JValue) : Except JSError PauseProjection := do
  let newEndDate := dateCopy subscription.endDate
  let sum ← plus h (getDate h newEndDate) pauseDays
  let newEndDate := setDate h newEndDate (primToNumber h sum)
  let nextDeliveryDate := getNextDeliveryDate h pauseStartDate subscription.deliveryInterval
  let pauseStartIso ← toISOString pauseStartDate
  let n ← toNumber h pauseDays
  let offset := (((n.mul (.fin 24)).mul (.fin 60)).mul (.fin 60)).mul (.fin 1000)
  let pauseEndIso ← toISOString (newDateOfNumber ((getTime pauseStartDate).add offset))
  let newEndIso ← toISOString newEndDate
  let nextDeliveryIso ← toISOString nextDeliveryDate
  return ⟨userId, subscription.plan, pauseStartIso, pauseEndIso, newEndIso, nextDeliveryIso⟩

/-- The handler of `POST /pause`, lines 73-110. -/
def pause (h : Host) (subscriptions : List Subscription) (body : PauseBody) :
    PauseResponse × List Subscription :=
  let userId := body.userId
  let pauseDate := body.pauseDate
  let pauseDays := body.pauseDays
  if !userId.truthy || !pauseDate.truthy || pauseDays = .undefined then
    (.failure 400 "User ID, pauseDate, and pauseDays are required.", subscriptions)
  else
    match subscriptions.find? (fun sub => sub.userId.strictEq userId) with
    | none => (.failure 404 "Subscription not found.", subscriptions)
    | some subscription =>
      match newDate h pauseDate with
      | .error e => (.uncaught e, subscriptions)
      | .ok pauseStartDate =>
        if isInvalid pauseStartDate then
          (.failure 400 "Invalid pauseDate format.", subscriptions)
        else
          match pauseDaysOutOfRange h pauseDays with
          | .error e => (.uncaught e, subscriptions)
          | .ok true =>
            (.failure 400 "PauseDays must be between 1 and 2 days in a week.", subscriptions)
          | .ok false =>
            match pauseProjection h subscription userId pauseStartDate pauseDays with
            | .error e => (.uncaught e, subscriptions)
            | .ok projection => (.ok projection, subscriptions)

/-! ## Sequences of requests -/

/-- A request to one of the three routes. -/
inductive Request where
  | subscribe (body : SubscribeBody)
  | list
  | pause (body : PauseBody)
  deriving DecidableEq

/-- The response to a request. -/
inductive Response where
  | subscribe (response : SubscribeResponse)
  | list (records : List Subscription)
  | pause (response : PauseResponse)
  deriving DecidableEq

/-- One request served on the array `subscriptions`. -/
def handle (h : Host) (subscriptions : List Subscription) :
    Request → Response × List Subscription
  | .subscribe body =>
    (.subscribe (subscribe h subscriptions body).1, (subscribe h subscriptions body).2)
  | .list => (.list (listSubscriptions subscriptions).1, (listSubscriptions subscriptions).2)
  | .pause body => (.pause (pause h subscriptions body).1, (pause h subscriptions body).2)

/-- A sequence of requests served one after the other: the responses in order
and the final array. -/
def run (h : Host) (subscriptions : List Subscription) :
    List Request → List Response × List Subscription
  | [] => ([], subscriptions)
  | r :: rest =>
    let step := handle h subscriptions r
    let tail := run h step.2 rest
    (step.1 :: tail.1, tail.2)

/-- The arrays the process can hold: `subscriptions` starts empty (line 7) and
changes only through the handlers. -/
def Reachable (h : Host) (subscriptions : List Subscription) : Prop :=
  ∃ requests : List Request, (run h [] requests).2 = subscriptions

/-! ## A reference host for worked examples -/

/-- The value of a decimal digit. -/
def digitValue (c : Char) : Option Nat :=
  if 48 ≤ c.toNat ∧ c.toNat ≤ 57 then some (c.toNat - 48) else none

/-- The value of a string of decimal digits. -/
def digitsValue (cs : List Char) : Option Nat :=
  cs.foldl (fun acc c => acc.bind fun a => (digitValue c).map fun d => 10 * a + d) (some 0)

/-- The number of days of month `m` (1 = January) of year `y`. -/
def daysInMonth (y : Int) (m : Nat) : Nat :=
  if m = 2 then (if daysInYear y = 366 then 29 else 28)
  else if m = 4 ∨ m = 6 ∨ m = 9 ∨ m = 11 then 30
  else 31

/-- The time value of midnight UTC on a calendar date; NaN when the month or
the day is out of range. -/
def isoInstant (y : Int) (m d : Nat) : JSNum :=
  if 1 ≤ m ∧ m ≤ 12 ∧ 1 ≤ d ∧ d ≤ daysInMonth y m then
    .fin (((dayFromYear y + daysBeforeMonth (leapDay y) ((m : Int) - 1) + (d : Int) - 1)
      * msPerDay : Int) : ℚ)
  else .nan

/-- The date-only forms of the ECMAScript date-time string format,
`YYYY-MM-DD` and `±YYYYYY-MM-DD`, read as UTC; NaN for any other string. -/
def parseIsoDate (s : String) : JSNum :=
  match s.toList with
  | [y1, y2, y3, y4, '-', m1, m2, '-', d1, d2] =>
    match digitsValue [y1, y2, y3, y4], digitsValue [m1, m2], digitsValue [d1, d2] with
    | some y, some m, some d => isoInstant y m d
    | _, _, _ => .nan
  | [sign, y1, y2, y3, y4, y5, y6, '-', m1, m2, '-', d1, d2] =>
    match digitsValue [y1, y2, y3, y4, y5, y6], digitsValue [m1, m2], digitsValue [d1, d2] with
    | some y, some m, some d =>
      if sign = '+' then isoInstant y m d
      else if sign = '-' ∧ y ≠ 0 then isoInstant (-(y : Int)) m d
      else .nan
    | _, _, _ => .nan
  | _ => .nan

/-- `ToNumber` on the empty string and on unsigned decimal integer literals;
NaN for any other string. -/
def parseDecimal (s : String) : JSNum :=
  match digitsValue s.toList with
  | some n => .fin n
  | none => .nan

/-- The string of an array element in `Array.prototype.join`, for an element
that is a string, a boolean, `null`, an object without a "toString" field or
an integer of fewer than 22 digits. -/
def elementString : JValue → String
  | .str s => s
  | .bool b => if b then "true" else "false"
  | .num n => dayString n
  | .obj _ => "[object Object]"
  | _ => ""

/-- `ToPrimitive` on an object parsed from JSON: "[object Object]", or a
`TypeError` when an own property hides `Object.prototype.toString`; on an
array, its elements joined by commas. -/
def plainToPrimitive : JValue → Option String
  | .obj fields => if fields.any (fun f => f.1 == "toString") then none
    else some "[object Object]"
  | .arr items => some (",".intercalate (items.map elementString))
  | _ => none

/-- A host in UTC that follows ECMAScript on date-only ISO strings, on
unsigned decimal literals and words that are no numeric literal, on objects,
and on arrays of strings, booleans, `null` and small integers.  It serves the
worked examples only; no general theorem mentions it. -/
def refHost : Host where
  dateParse := parseIsoDate
  stringToNumber := parseDecimal
  objectToPrimitive := plainToPrimitive
  localTZA := fun _ _ => 0

/-- The instant 2024-03-10T07:00:00Z, at which clocks in New York went from
02:00 EST to 03:00 EDT. -/
def springForward : Int := 1710054000000

/-- The local time zone adjustment of New York between November 2023 and
November 2024: five hours behind UTC before `springForward`, four hours behind
from then on; a local time before 03:00 on 2024-03-10 is read with the earlier
offset. -/
def newYorkTZA (t : Int) (isUTC : Bool) : Int :=
  if isUTC then (if t < springForward then -18000000 else -14400000)
  else (if t < springForward - 14400000 then -18000000 else -14400000)

/-- The reference host on New York time, for instants between November 2023
and November 2024. -/
def springHost : Host where
  dateParse := parseIsoDate
  stringToNumber := parseDecimal
  objectToPrimitive := plainToPrimitive
  localTZA := newYorkTZA

/-! ## Vocabulary of the statements -/

/-- The `Date` for an integral instant `x`: the time value `x` when it lies in
the range of time values, the invalid date otherwise. -/
def instant (x : Int) : TimeValue :=
  if |x| ≤ maxTime then some x else none

/-- The instant `n` calendar days after `t` on the local calendar of the host:
the instant at which the local clock shows the date of `t` moved by `n` days
and the time of day of `t`. -/
def addLocalDays (h : Host) (t n : Int) : Int :=
  utc h (localTime h t + n * msPerDay)

/-- The records carried by the 201 responses of a list of responses, in order. -/
def createdRecords : List Response → List Subscription
  | [] => []
  | .subscribe (.created _ r) :: rest => r :: createdRecords rest
  | _ :: rest => createdRecords rest

/-- What every stored record satisfies: a truthy `userId`, the product "Milk",
the interval 2, a valid `startDate`, one of the two plans, and the `endDate`
that is the `Date` for `startDate` plus the calendar days of the plan. -/
def Subscription.WellFormed (h : Host) (r : Subscription) : Prop :=
  r.userId.truthy = true ∧ r.product = "Milk" ∧ r.deliveryInterval = .fin 2 ∧
    ∃ t days : Int, r.startDate = some t ∧ |t| ≤ maxTime ∧
      ((r.plan = .str "Elite" ∧ days = 24) ∨ (r.plan = .str "Premium" ∧ days = 48)) ∧
      r.endDate = instant (addLocalDays h t days)

/-- The body `userId "u1", plan "Elite", date "2024-01-01"` of the worked examples. -/
def u1Elite : SubscribeBody :=
  ⟨.str "u1", .str "Elite", .str "2024-01-01"⟩

/-- The record that body creates: 2024-01-01T00:00:00Z to 2024-01-25T00:00:00Z. -/
def u1Record : Subscription :=
  ⟨.str "u1", "Milk", .str "Elite", some 1704067200000, some 1706140800000, .fin 2⟩

/-- A second body: `userId "u2"`, plan "Premium", date "2023-12-20". -/
def u2Premium : SubscribeBody :=
  ⟨.str "u2", .str "Premium", .str "2023-12-20"⟩

/-- The record that body creates: 2023-12-20T00:00:00Z to 2024-02-06T00:00:00Z. -/
def u2Record : Subscription :=
  ⟨.str "u2", "Milk", .str "Premium", some 1703030400000, some 1707177600000, .fin 2⟩

/-- A body whose `userId` is the JSON object with no fields. -/
def objectUser : SubscribeBody :=
  ⟨.obj [], .str "Elite", .str "2024-01-01"⟩

/-- The record that body creates. -/
def objectRecord : Subscription :=
  ⟨.obj [], "Milk", .str "Elite", some 1704067200000, some 1706140800000, .fin 2⟩

/-- A body whose date is the last day of the range of time values,
+275760-09-13T00:00:00Z. -/
def lastDay : SubscribeBody :=
  ⟨.str "u1", .str "Elite", .str "+275760-09-13"⟩

/-- The record that body creates: its `endDate` is the invalid date. -/
def lastDayRecord : Subscription :=
  ⟨.str "u1", "Milk", .str "Elite", some 8640000000000000, none, .fin 2⟩

/-! ## Time values -/

theorem truncate_intCast (n : Int) : truncate (n : ℚ) = n := by
  unfold truncate; split_ifs <;> simp

theorem timeClip_intCast (x : Int) : timeClip (.fin (x : ℚ)) = instant x := by
  unfold timeClip instant
  simp only [truncate_intCast]
  have : (|(x : ℚ)| ≤ (maxTime : ℚ)) ↔ |x| ≤ maxTime := by
    rw [← Int.cast_abs, Int.cast_le]
  simp only [this]

theorem abs_truncate_le (q : ℚ) (m : Int) (hm : 0 ≤ m) (h : |q| ≤ (m : ℚ)) : |truncate q| ≤ m := by
  unfold truncate
  rw [abs_le] at h ⊢
  obtain ⟨h1, h2⟩ := h
  split_ifs with h0
  · constructor
    · have : (0 : Int) ≤ ⌊q⌋ := Int.floor_nonneg.mpr h0
      omega
    · have h3 : ((⌊q⌋ : Int) : ℚ) ≤ (m : ℚ) := le_trans (Int.floor_le q) h2
      exact_mod_cast h3
  · push_neg at h0
    constructor
    · have : (-m : Int) ≤ ⌈q⌉ := by
        have := Int.le_ceil q
        have h3 : ((-m : Int) : ℚ) ≤ (⌈q⌉ : ℚ) := by push_cast; linarith
        exact_mod_cast h3
      exact this
    · have : ⌈q⌉ ≤ 0 := Int.ceil_le.mpr (by simpa using h0.le)
      omega

theorem timeClip_range (n : JSNum) (t : Int) (h : timeClip n = some t) : |t| ≤ maxTime := by
  unfold timeClip at h
  split at h
  · split_ifs at h with hq
    · simp only [Option.some.injEq] at h
      subst h
      exact abs_truncate_le _ _ (by decide) hq
  · cases h

theorem ite_between {c : Prop} [Decidable c] {a b lo hi : Int}
    (ha : lo ≤ a ∧ a ≤ hi) (hb : lo ≤ b ∧ b ≤ hi) :
    lo ≤ (if c then a else b) ∧ (if c then a else b) ≤ hi := by
  by_cases hc : c
  · rw [if_pos hc]; exact ha
  · rw [if_neg hc]; exact hb

theorem monthOfDay_range (leap d : Int) : 0 ≤ monthOfDay leap d ∧ monthOfDay leap d ≤ 11 := by
  unfold monthOfDay
  repeat (refine ite_between (by decide) ?_)
  decide

theorem makeDay_roundtrip (t n : Int) :
    makeDay (yearFromTime t) (monthFromTime t) (.fin ((dateFromTime t + n : Int) : ℚ))
      = some (day t + n) := by
  have hm := monthOfDay_range (leapDay (yearFromTime t)) (dayWithinYear t)
  unfold makeDay
  simp only [truncate_intCast]
  unfold dateFromTime monthFromTime
  generalize monthOfDay (leapDay (yearFromTime t)) (dayWithinYear t) = m at hm ⊢
  have h1 : m / 12 = 0 := by omega
  have h2 : m % 12 = m := by omega
  rw [h1, h2, add_zero]
  unfold dayWithinYear
  congr 1
  omega

theorem setDate_getDate_add (h : Host) (t n : Int) :
    setDate h (some t) ((getDate h (some t)).add (.fin (n : ℚ)))
      = instant (addLocalDays h t n) := by
  unfold setDate getDate JSNum.add
  simp only
  have e : ((dateFromTime (localTime h t) : Int) : ℚ) + (n : ℚ)
      = ((dateFromTime (localTime h t) + n : Int) : ℚ) := by push_cast; rfl
  rw [e, makeDay_roundtrip]
  simp only [makeDate, Option.map_some']
  rw [timeClip_intCast]
  have e2 : (day (localTime h t) + n) * msPerDay + timeWithinDay (localTime h t)
      = localTime h t + n * msPerDay := by
    unfold day timeWithinDay msPerDay
    omega
  rw [e2]
  rfl

/-- Where the offset in force at `t` is also the one that applies to the local
time `n` days later, `n` calendar days are `n` times 86,400,000 ms. -/
theorem addLocalDays_same_offset (h : Host) (t n : Int)
    (hSame : h.localTZA (localTime h t + n * msPerDay) false = h.localTZA t true) :
    addLocalDays h t n = t + n * msPerDay := by
  unfold addLocalDays utc
  rw [hSame]
  unfold localTime
  omega

theorem addLocalDays_fixed (h : Host) (c t n : Int)
    (hFixed : ∀ u isUTC, h.localTZA u isUTC = c) :
    addLocalDays h t n = t + n * msPerDay :=
  addLocalDays_same_offset h t n (by rw [hFixed, hFixed])

/-! ## Lookup in the array -/

theorem find_none_of_fresh (subscriptions : List Subscription) (userId : JValue)
    (hFresh : ∀ sub ∈ subscriptions, sub.userId.strictEq userId = false) :
    subscriptions.find? (fun sub => sub.userId.strictEq userId) = none := by
  rw [List.find?_eq_none]
  intro sub hsub
  simp [hFresh sub hsub]

theorem find_some_of_present (subscriptions : List Subscription) (userId : JValue)
    (hDup : ∃ sub ∈ subscriptions, sub.userId.strictEq userId = true) :
    ∃ sub, subscriptions.find? (fun sub => sub.userId.strictEq userId) = some sub := by
  cases hfind : subscriptions.find? (fun sub => sub.userId.strictEq userId) with
  | some sub => exact ⟨sub, rfl⟩
  | none =>
    rw [List.find?_eq_none] at hfind
    obtain ⟨sub, hsub, heq⟩ := hDup
    exact absurd heq (hfind sub hsub)

theorem dateCopy_valid (t : Int) (ht : |t| ≤ maxTime) : dateCopy (some t) = some t := by
  show timeClip (.fin (t : ℚ)) = some t
  rw [timeClip_intCast]
  unfold instant
  rw [if_pos ht]

theorem newDate_range (h : Host) (v : JValue) (t : Int) (hv : newDate h v = .ok (some t)) :
    |t| ≤ maxTime := by
  unfold newDate at hv
  split at hv
  · cases hv
  · injection hv with hv; exact timeClip_range _ _ hv
  · injection hv with hv; exact timeClip_range _ _ hv

/-! ## `POST /subscribe` -/

theorem planTable_elite : planTable (.str "Elite") = some (.fin 24, .fin 2) := by
  decide

theorem planTable_premium : planTable (.str "Premium") = some (.fin 48, .fin 2) := by
  decide


theorem subscribe_eq_created (h : Host) (subscriptions : List Subscription)
    (body : SubscribeBody) (t days : Int)
    (hUser : body.userId.truthy = true) (hGiven : body.date.truthy = true)
    (hFresh : ∀ sub ∈ subscriptions, sub.userId.strictEq body.userId = false)
    (hDate : newDate h body.date = .ok (some t))
    (hPlan : (body.plan = .str "Elite" ∧ days = 24) ∨ (body.plan = .str "Premium" ∧ days = 48)) :
    subscribe h subscriptions body =
      (.created "Subscription created successfully."
          ⟨body.userId, "Milk", body.plan, some t, instant (addLocalDays h t days), .fin 2⟩,
        subscriptions ++
          [⟨body.userId, "Milk", body.plan, some t, instant (addLocalDays h t days), .fin 2⟩]) := by
  have ht := newDate_range h _ t hDate
  have hfind := find_none_of_fresh subscriptions body.userId hFresh
  have hcopy := dateCopy_valid t ht
  obtain ⟨userId, plan, date⟩ := body
  simp only at hUser hGiven hfind hDate hPlan hFresh ⊢
  rcases hPlan with ⟨hp, hd⟩ | ⟨hp, hd⟩
  · have e := setDate_getDate_add h t 24
    simp only [Int.cast_ofNat] at e
    subst hd hp
    have hp : (JValue.str "Elite").truthy = true := by decide
    simp [subscribe, hUser, hGiven, hfind, hDate, hp, isInvalid, planTable_elite, hcopy, e]
  · have e := setDate_getDate_add h t 48
    simp only [Int.cast_ofNat] at e
    subst hd hp
    have hp : (JValue.str "Premium").truthy = true := by decide
    simp [subscribe, hUser, hGiven, hfind, hDate, hp, isInvalid, planTable_premium, hcopy, e]

theorem subscribe_eq_required (h : Host) (subscriptions : List Subscription)
    (body : SubscribeBody)
    (hMissing : body.userId.truthy = false ∨ body.plan.truthy = false ∨ body.date.truthy = false) :
    subscribe h subscriptions body =
      (.failure 400 "User ID, plan, and date are required.", subscriptions) := by
  unfold subscribe
  rcases hMissing with hm | hm | hm <;> simp [hm]

theorem subscribe_eq_duplicate (h : Host) (subscriptions : List Subscription)
    (body : SubscribeBody)
    (hUser : body.userId.truthy = true) (hPlan : body.plan.truthy = true)
    (hDate : body.date.truthy = true)
    (hDup : ∃ sub ∈ subscriptions, sub.userId.strictEq body.userId = true) :
    subscribe h subscriptions body =
      (.failure 400 "User already has an active subscription.", subscriptions) := by
  obtain ⟨sub, hsub⟩ := find_some_of_present subscriptions body.userId hDup
  simp [subscribe, hUser, hPlan, hDate, hsub]

theorem subscribe_eq_invalidDate (h : Host) (subscriptions : List Subscription)
    (body : SubscribeBody)
    (hUser : body.userId.truthy = true) (hPlan : body.plan.truthy = true)
    (hDate : body.date.truthy = true)
    (hFresh : ∀ sub ∈ subscriptions, sub.userId.strictEq body.userId = false)
    (hBad : newDate h body.date = .ok none) :
    subscribe h subscriptions body = (.failure 400 "Invalid date format.", subscriptions) := by
  have hfind := find_none_of_fresh subscriptions body.userId hFresh
  simp [subscribe, hUser, hPlan, hDate, hfind, hBad, isInvalid]

theorem subscribe_eq_invalidPlan (h : Host) (subscriptions : List Subscription)
    (body : SubscribeBody) (t : Int)
    (hUser : body.userId.truthy = true) (hPlan : body.plan.truthy = true)
    (hDate : body.date.truthy = true)
    (hFresh : ∀ sub ∈ subscriptions, sub.userId.strictEq body.userId = false)
    (hOk : newDate h body.date = .ok (some t))
    (hOther : planTable body.plan = none) :
    subscribe h subscriptions body =
      (.failure 400 "Invalid plan. Choose Elite or Premium.", subscriptions) := by
  have hfind := find_none_of_fresh subscriptions body.userId hFresh
  simp [subscribe, hUser, hPlan, hDate, hfind, hOk, isInvalid, hOther]

theorem subscribe_eq_uncaught (h : Host) (subscriptions : List Subscription)
    (body : SubscribeBody) (e : JSError)
    (hUser : body.userId.truthy = true) (hPlan : body.plan.truthy = true)
    (hDate : body.date.truthy = true)
    (hFresh : ∀ sub ∈ subscriptions, sub.userId.strictEq body.userId = false)
    (hThrow : newDate h body.date = .error e) :
    subscribe h subscriptions body = (.uncaught e, subscriptions) := by
  have hfind := find_none_of_fresh subscriptions body.userId hFresh
  simp [subscribe, hUser, hPlan, hDate, hfind, hThrow]

theorem planTable_some (plan : JValue) (p : JSNum × JSNum) (hp : planTable plan = some p) :
    (plan = .str "Elite" ∧ p = (.fin 24, .fin 2)) ∨
      (plan = .str "Premium" ∧ p = (.fin 48, .fin 2)) := by
  unfold planTable at hp
  split_ifs at hp with h1 h2
  · left
    refine ⟨?_, by injection hp with hp; exact hp.symm⟩
    cases plan <;> simp [JValue.strictEq] at h1
    simp [h1]
  · right
    refine ⟨?_, by injection hp with hp; exact hp.symm⟩
    cases plan <;> simp [JValue.strictEq] at h2
    simp [h2]

/-- Every outcome of `POST /subscribe`, by the first check that fails. -/
theorem subscribe_cases (h : Host) (subscriptions : List Subscription) (body : SubscribeBody) :
    subscribe h subscriptions body =
        (.failure 400 "User ID, plan, and date are required.", subscriptions) ∨
    subscribe h subscriptions body =
        (.failure 400 "User already has an active subscription.", subscriptions) ∨
    (∃ e, subscribe h subscriptions body = (.uncaught e, subscriptions)) ∨
    subscribe h subscriptions body = (.failure 400 "Invalid date format.", subscriptions) ∨
    subscribe h subscriptions body =
        (.failure 400 "Invalid plan. Choose Elite or Premium.", subscriptions) ∨
    (∃ t days, body.userId.truthy = true ∧
      (∀ sub ∈ subscriptions, sub.userId.strictEq body.userId = false) ∧
      |t| ≤ maxTime ∧
      ((body.plan = .str "Elite" ∧ days = 24) ∨ (body.plan = .str "Premium" ∧ days = 48)) ∧
      subscribe h subscriptions body =
        (.created "Subscription created successfully."
            ⟨body.userId, "Milk", body.plan, some t, instant (addLocalDays h t days), .fin 2⟩,
          subscriptions ++
            [⟨body.userId, "Milk", body.plan, some t, instant (addLocalDays h t days), .fin 2⟩])) := by
  by_cases hU : body.userId.truthy = true
  swap
  · left; exact subscribe_eq_required h _ _ (Or.inl (by simpa using hU))
  by_cases hP : body.plan.truthy = true
  swap
  · left; exact subscribe_eq_required h _ _ (Or.inr (Or.inl (by simpa using hP)))
  by_cases hD : body.date.truthy = true
  swap
  · left; exact subscribe_eq_required h _ _ (Or.inr (Or.inr (by simpa using hD)))
  by_cases hDup : ∃ sub ∈ subscriptions, sub.userId.strictEq body.userId = true
  · right; left; exact subscribe_eq_duplicate h _ _ hU hP hD hDup
  have hFresh : ∀ sub ∈ subscriptions, sub.userId.strictEq body.userId = false := by
    intro sub hsub
    cases hs : sub.userId.strictEq body.userId
    · rfl
    · exact absurd ⟨sub, hsub, hs⟩ hDup
  cases hN : newDate h body.date with
  | error e => right; right; left; exact ⟨e, subscribe_eq_uncaught h _ _ e hU hP hD hFresh hN⟩
  | ok d =>
    cases d with
    | none => right; right; right; left; exact subscribe_eq_invalidDate h _ _ hU hP hD hFresh hN
    | some t =>
      cases hT : planTable body.plan with
      | none =>
        right; right; right; right; left
        exact subscribe_eq_invalidPlan h _ _ t hU hP hD hFresh hN hT
      | some p =>
        right; right; right; right; right
        rcases planTable_some _ _ hT with ⟨hp, _⟩ | ⟨hp, _⟩
        · exact ⟨t, 24, hU, hFresh, newDate_range h _ t hN, Or.inl ⟨hp, rfl⟩,
            subscribe_eq_created h _ _ t 24 hU hD hFresh hN (Or.inl ⟨hp, rfl⟩)⟩
        · exact ⟨t, 48, hU, hFresh, newDate_range h _ t hN, Or.inr ⟨hp, rfl⟩,
            subscribe_eq_created h _ _ t 48 hU hD hFresh hN (Or.inr ⟨hp, rfl⟩)⟩

/-- A 201 response determines its request: the three fields were truthy, no
stored `userId` was strictly equal, the date has a valid time value, the plan
is one of the two, and the record is the one built from them. -/
theorem subscribe_created_inv (h : Host) (subscriptions : List Subscription)
    (body : SubscribeBody) (message : String) (r : Subscription)
    (hCreated : (subscribe h subscriptions body).1 = .created message r) :
    ∃ t days : Int, body.userId.truthy = true ∧
      (∀ sub ∈ subscriptions, sub.userId.strictEq body.userId = false) ∧
      ((body.plan = .str "Elite" ∧ days = 24) ∨ (body.plan = .str "Premium" ∧ days = 48)) ∧
      r = ⟨body.userId, "Milk", body.plan, some t, instant (addLocalDays h t days), .fin 2⟩ := by
  rcases subscribe_cases h subscriptions body with
    e | e | ⟨_, e⟩ | e | e | ⟨t, days, hU, hFresh, _, hPlan, e⟩
  · rw [e] at hCreated; cases hCreated
  · rw [e] at hCreated; cases hCreated
  · rw [e] at hCreated; cases hCreated
  · rw [e] at hCreated; cases hCreated
  · rw [e] at hCreated; cases hCreated
  · rw [e] at hCreated
    injection hCreated with _ hr
    exact ⟨t, days, hU, hFresh, hPlan, hr.symm⟩

/-! ## `POST /pause` -/

theorem pause_eq_required (h : Host) (subscriptions : List Subscription) (body : PauseBody)
    (hMissing : body.userId.truthy = false ∨ body.pauseDate.truthy = false ∨
      body.pauseDays = .undefined) :
    pause h subscriptions body =
      (.failure 400 "User ID, pauseDate, and pauseDays are required.", subscriptions) := by
  unfold pause
  rcases hMissing with hm | hm | hm <;> simp [hm]

theorem pause_eq_notFound (h : Host) (subscriptions : List Subscription) (body : PauseBody)
    (hUser : body.userId.truthy = true) (hDate : body.pauseDate.truthy = true)
    (hDays : body.pauseDays ≠ .undefined)
    (hNone : ∀ sub ∈ subscriptions, sub.userId.strictEq body.userId = false) :
    pause h subscriptions body = (.failure 404 "Subscription not found.", subscriptions) := by
  have hfind := find_none_of_fresh subscriptions body.userId hNone
  simp [pause, hUser, hDate, hDays, hfind]

theorem pause_eq_invalidDate (h : Host) (subscriptions : List Subscription) (body : PauseBody)
    (sub : Subscription)
    (hUser : body.userId.truthy = true) (hDate : body.pauseDate.truthy = true)
    (hDays : body.pauseDays ≠ .undefined)
    (hFound : subscriptions.find? (fun sub => sub.userId.strictEq body.userId) = some sub)
    (hBad : newDate h body.pauseDate = .ok none) :
    pause h subscriptions body = (.failure 400 "Invalid pauseDate format.", subscriptions) := by
  simp [pause, hUser, hDate, hDays, hFound, hBad, isInvalid]

theorem pause_eq_dateThrows (h : Host) (subscriptions : List Subscription) (body : PauseBody)
    (sub : Subscription) (e : JSError)
    (hUser : body.userId.truthy = true) (hDate : body.pauseDate.truthy = true)
    (hDays : body.pauseDays ≠ .undefined)
    (hFound : subscriptions.find? (fun sub => sub.userId.strictEq body.userId) = some sub)
    (hThrow : newDate h body.pauseDate = .error e) :
    pause h subscriptions body = (.uncaught e, subscriptions) := by
  simp [pause, hUser, hDate, hDays, hFound, hThrow]

theorem pause_eq_daysThrow (h : Host) (subscriptions : List Subscription) (body : PauseBody)
    (sub : Subscription) (t : Int) (e : JSError)
    (hUser : body.userId.truthy = true) (hDate : body.pauseDate.truthy = true)
    (hDays : body.pauseDays ≠ .undefined)
    (hFound : subscriptions.find? (fun sub => sub.userId.strictEq body.userId) = some sub)
    (hOk : newDate h body.pauseDate = .ok (some t))
    (hRange : pauseDaysOutOfRange h body.pauseDays = .error e) :
    pause h subscriptions body = (.uncaught e, subscriptions) := by
  simp [pause, hUser, hDate, hDays, hFound, hOk, isInvalid, hRange]

theorem pause_eq_outOfRange (h : Host) (subscriptions : List Subscription) (body : PauseBody)
    (sub : Subscription) (t : Int)
    (hUser : body.userId.truthy = true) (hDate : body.pauseDate.truthy = true)
    (hDays : body.pauseDays ≠ .undefined)
    (hFound : subscriptions.find? (fun sub => sub.userId.strictEq body.userId) = some sub)
    (hOk : newDate h body.pauseDate = .ok (some t))
    (hRange : pauseDaysOutOfRange h body.pauseDays = .ok true) :
    pause h subscriptions body =
      (.failure 400 "PauseDays must be between 1 and 2 days in a week.", subscriptions) := by
  simp [pause, hUser, hDate, hDays, hFound, hOk, isInvalid, hRange]

theorem pause_eq_projection (h : Host) (subscriptions : List Subscription) (body : PauseBody)
    (sub : Subscription) (t : Int) (p : PauseProjection)
    (hUser : body.userId.truthy = true) (hDate : body.pauseDate.truthy = true)
    (hDays : body.pauseDays ≠ .undefined)
    (hFound : subscriptions.find? (fun sub => sub.userId.strictEq body.userId) = some sub)
    (hOk : newDate h body.pauseDate = .ok (some t))
    (hRange : pauseDaysOutOfRange h body.pauseDays = .ok false)
    (hProj : pauseProjection h sub body.userId (some t) body.pauseDays = .ok p) :
    pause h subscriptions body = (.ok p, subscriptions) := by
  simp [pause, hUser, hDate, hDays, hFound, hOk, isInvalid, hRange, hProj]

theorem pause_eq_projectionThrows (h : Host) (subscriptions : List Subscription)
    (body : PauseBody) (sub : Subscription) (t : Int) (e : JSError)
    (hUser : body.userId.truthy = true) (hDate : body.pauseDate.truthy = true)
    (hDays : body.pauseDays ≠ .undefined)
    (hFound : subscriptions.find? (fun sub => sub.userId.strictEq body.userId) = some sub)
    (hOk : newDate h body.pauseDate = .ok (some t))
    (hRange : pauseDaysOutOfRange h body.pauseDays = .ok false)
    (hProj : pauseProjection h sub body.userId (some t) body.pauseDays = .error e) :
    pause h subscriptions body = (.uncaught e, subscriptions) := by
  simp [pause, hUser, hDate, hDays, hFound, hOk, isInvalid, hRange, hProj]

theorem toNumber_num (h : Host) (n : JSNum) : toNumber h (.num n) = .ok n := by
  rfl

theorem pauseDaysOutOfRange_int (h : Host) (n : Int) :
    pauseDaysOutOfRange h (.num (.fin n)) = .ok (decide (n < 1 ∨ 2 < n)) := by
  unfold pauseDaysOutOfRange
  simp [toNumber_num, bind, Except.bind, pure, Except.pure, JSNum.lt]
  by_cases h1 : n < 1
  · simp [h1]
    left; exact_mod_cast h1
  · by_cases h2 : 2 < n
    · simp [h2]
      right; exact_mod_cast h2
    · simp [h1, h2]
      constructor
      · push_neg at h1; exact_mod_cast h1
      · push_neg at h2; exact_mod_cast h2

theorem offset_int (n : Int) :
    ((((JSNum.fin n).mul (.fin 24)).mul (.fin 60)).mul (.fin 60)).mul (.fin 1000)
      = .fin ((n * msPerDay : Int) : ℚ) := by
  simp only [JSNum.mul, msPerDay]
  congr 1
  push_cast
  ring

theorem pauseEnd_int (t n : Int) :
    newDateOfNumber ((getTime (some t)).add
        (((((JSNum.fin n).mul (.fin 24)).mul (.fin 60)).mul (.fin 60)).mul (.fin 1000)))
      = instant (t + n * msPerDay) := by
  rw [offset_int]
  unfold newDateOfNumber getTime JSNum.add
  simp only
  rw [← timeClip_intCast]
  congr 2
  push_cast
  rfl

theorem getNextDeliveryDate_int (h : Host) (t k : Int) (ht : |t| ≤ maxTime) :
    getNextDeliveryDate h (some t) (.fin k) = instant (addLocalDays h t k) := by
  unfold getNextDeliveryDate
  simp only [dateCopy_valid t ht]
  exact setDate_getDate_add h t k

theorem pauseProjection_int (h : Host) (sub : Subscription) (userId : JValue)
    (t e n k : Int)
    (hStart : |t| ≤ maxTime)
    (hEnd : sub.endDate = some e) (hEndValid : |e| ≤ maxTime)
    (hInterval : sub.deliveryInterval = .fin k)
    (hPauseEnd : |t + n * msPerDay| ≤ maxTime)
    (hNewEnd : |addLocalDays h e n| ≤ maxTime)
    (hNext : |addLocalDays h t k| ≤ maxTime) :
    pauseProjection h sub userId (some t) (.num (.fin n)) =
      .ok ⟨userId, sub.plan, t, t + n * msPerDay, addLocalDays h e n, addLocalDays h t k⟩ := by
  have e1 := setDate_getDate_add h e n
  have e2 := getNextDeliveryDate_int h t k hStart
  have e3 := pauseEnd_int t n
  have i1 : instant (addLocalDays h e n) = some (addLocalDays h e n) := by
    unfold instant; rw [if_pos hNewEnd]
  have i2 : instant (addLocalDays h t k) = some (addLocalDays h t k) := by
    unfold instant; rw [if_pos hNext]
  have i3 : instant (t + n * msPerDay) = some (t + n * msPerDay) := by
    unfold instant; rw [if_pos hPauseEnd]
  rw [i1] at e1
  rw [i2] at e2
  rw [i3] at e3
  have hplus : plus h (getDate h (some e)) (.num (.fin n))
      = .ok (.num ((getDate h (some e)).add (.fin n))) := by
    rfl
  simp [pauseProjection, hEnd, dateCopy_valid e hEndValid, hplus, primToNumber, e1,
    hInterval, e2, toISOString, toNumber_num, e3, bind, Except.bind, pure, Except.pure]

theorem toISOString_ok (d : TimeValue) (x : Int) (hd : toISOString d = .ok x) : d = some x := by
  cases d with
  | none => cases hd
  | some t => injection hd with hd; rw [hd]

theorem pauseProjection_ok (h : Host) (sub : Subscription) (userId : JValue)
    (start : TimeValue) (pauseDays : JValue) (p : PauseProjection)
    (hp : pauseProjection h sub userId start pauseDays = .ok p) :
    ∃ sum n, plus h (getDate h (dateCopy sub.endDate)) pauseDays = .ok sum ∧
      toNumber h pauseDays = .ok n ∧
      p.userId = userId ∧ p.plan = sub.plan ∧
      start = some p.pauseStartDate ∧
      newDateOfNumber ((getTime start).add
        ((((n.mul (.fin 24)).mul (.fin 60)).mul (.fin 60)).mul (.fin 1000)))
        = some p.pauseEndDate ∧
      setDate h (dateCopy sub.endDate) (primToNumber h sum) = some p.newEndDate ∧
      getNextDeliveryDate h start sub.deliveryInterval = some p.nextDeliveryDate := by
  unfold pauseProjection at hp
  simp only [bind, Except.bind, pure, Except.pure] at hp
  cases h1 : plus h (getDate h (dateCopy sub.endDate)) pauseDays with
  | error e => rw [h1] at hp; cases hp
  | ok sum =>
    rw [h1] at hp
    simp only at hp
    cases h2 : toISOString start with
    | error e => rw [h2] at hp; cases hp
    | ok s1 =>
      rw [h2] at hp
      simp only at hp
      cases h3 : toNumber h pauseDays with
      | error e => rw [h3] at hp; cases hp
      | ok n =>
        rw [h3] at hp
        simp only at hp
        cases h4 : toISOString (newDateOfNumber ((getTime start).add
            ((((n.mul (.fin 24)).mul (.fin 60)).mul (.fin 60)).mul (.fin 1000)))) with
        | error e => rw [h4] at hp; cases hp
        | ok s2 =>
          rw [h4] at hp
          simp only at hp
          cases h5 : toISOString (setDate h (dateCopy sub.endDate) (primToNumber h sum)) with
          | error e => rw [h5] at hp; cases hp
          | ok s3 =>
            rw [h5] at hp
            simp only at hp
            cases h6 : toISOString (getNextDeliveryDate h start sub.deliveryInterval) with
            | error e => rw [h6] at hp; cases hp
            | ok s4 =>
              rw [h6] at hp
              simp only at hp
              injection hp with hp
              subst hp
              exact ⟨sum, n, rfl, rfl, rfl, rfl, toISOString_ok _ _ h2, toISOString_ok _ _ h4,
                toISOString_ok _ _ h5, toISOString_ok _ _ h6⟩

theorem pause_ok (h : Host) (subscriptions : List Subscription) (body : PauseBody)
    (p : PauseProjection) (hp : (pause h subscriptions body).1 = .ok p) :
    ∃ sub t, body.userId.truthy = true ∧
      subscriptions.find? (fun sub => sub.userId.strictEq body.userId) = some sub ∧
      newDate h body.pauseDate = .ok (some t) ∧
      pauseDaysOutOfRange h body.pauseDays = .ok false ∧
      pauseProjection h sub body.userId (some t) body.pauseDays = .ok p := by
  by_cases hU : body.userId.truthy = true
  swap
  · rw [pause_eq_required h _ _ (Or.inl (by simpa using hU))] at hp; cases hp
  by_cases hD : body.pauseDate.truthy = true
  swap
  · rw [pause_eq_required h _ _ (Or.inr (Or.inl (by simpa using hD)))] at hp; cases hp
  by_cases hN : body.pauseDays = .undefined
  · rw [pause_eq_required h _ _ (Or.inr (Or.inr hN))] at hp; cases hp
  cases hF : subscriptions.find? (fun sub => sub.userId.strictEq body.userId) with
  | none =>
    have hNone : ∀ sub ∈ subscriptions, sub.userId.strictEq body.userId = false := by
      intro sub hsub
      rw [List.find?_eq_none] at hF
      simpa using hF sub hsub
    rw [pause_eq_notFound h _ _ hU hD hN hNone] at hp; cases hp
  | some sub =>
    cases hT : newDate h body.pauseDate with
    | error e => rw [pause_eq_dateThrows h _ _ sub e hU hD hN hF hT] at hp; cases hp
    | ok d =>
      cases d with
      | none => rw [pause_eq_invalidDate h _ _ sub hU hD hN hF hT] at hp; cases hp
      | some t =>
        cases hR : pauseDaysOutOfRange h body.pauseDays with
        | error e => rw [pause_eq_daysThrow h _ _ sub t e hU hD hN hF hT hR] at hp; cases hp
        | ok b =>
          cases b with
          | true => rw [pause_eq_outOfRange h _ _ sub t hU hD hN hF hT hR] at hp; cases hp
          | false =>
            cases hP : pauseProjection h sub body.userId (some t) body.pauseDays with
            | error e =>
              rw [pause_eq_projectionThrows h _ _ sub t e hU hD hN hF hT hR hP] at hp; cases hp
            | ok q =>
              rw [pause_eq_projection h _ _ sub t q hU hD hN hF hT hR hP] at hp
              injection hp with hp
              subst hp
              exact ⟨sub, t, hU, rfl, rfl, rfl, hP⟩

/-- Every outcome of `POST /pause`, by the first check that fails. -/
theorem pause_cases (h : Host) (subscriptions : List Subscription) (body : PauseBody) :
    pause h subscriptions body =
        (.failure 400 "User ID, pauseDate, and pauseDays are required.", subscriptions) ∨
    pause h subscriptions body = (.failure 404 "Subscription not found.", subscriptions) ∨
    (∃ e, pause h subscriptions body = (.uncaught e, subscriptions)) ∨
    pause h subscriptions body = (.failure 400 "Invalid pauseDate format.", subscriptions) ∨
    pause h subscriptions body =
        (.failure 400 "PauseDays must be between 1 and 2 days in a week.", subscriptions) ∨
    (∃ p, pause h subscriptions body = (.ok p, subscriptions)) := by
  by_cases hU : body.userId.truthy = true
  swap
  · left; exact pause_eq_required h _ _ (Or.inl (by simpa using hU))
  by_cases hD : body.pauseDate.truthy = true
  swap
  · left; exact pause_eq_required h _ _ (Or.inr (Or.inl (by simpa using hD)))
  by_cases hN : body.pauseDays = .undefined
  · left; exact pause_eq_required h _ _ (Or.inr (Or.inr hN))
  cases hF : subscriptions.find? (fun sub => sub.userId.strictEq body.userId) with
  | none =>
    have hNone : ∀ sub ∈ subscriptions, sub.userId.strictEq body.userId = false := by
      intro sub hsub
      rw [List.find?_eq_none] at hF
      simpa using hF sub hsub
    right; left; exact pause_eq_notFound h _ _ hU hD hN hNone
  | some sub =>
    cases hT : newDate h body.pauseDate with
    | error e => right; right; left; exact ⟨e, pause_eq_dateThrows h _ _ sub e hU hD hN hF hT⟩
    | ok d =>
      cases d with
      | none => right; right; right; left; exact pause_eq_invalidDate h _ _ sub hU hD hN hF hT
      | some t =>
        cases hR : pauseDaysOutOfRange h body.pauseDays with
        | error e =>
          right; right; left; exact ⟨e, pause_eq_daysThrow h _ _ sub t e hU hD hN hF hT hR⟩
        | ok b =>
          cases b with
          | true =>
            right; right; right; right; left
            exact pause_eq_outOfRange h _ _ sub t hU hD hN hF hT hR
          | false =>
            cases hP : pauseProjection h sub body.userId (some t) body.pauseDays with
            | error e =>
              right; right; left
              exact ⟨e, pause_eq_projectionThrows h _ _ sub t e hU hD hN hF hT hR hP⟩
            | ok q =>
              right; right; right; right; right
              exact ⟨q, pause_eq_projection h _ _ sub t q hU hD hN hF hT hR hP⟩

theorem pause_store (h : Host) (subscriptions : List Subscription) (body : PauseBody) :
    (pause h subscriptions body).2 = subscriptions := by
  unfold pause
  simp only
  split_ifs
  · rfl
  · split
    · rfl
    · split
      · rfl
      · split_ifs
        · rfl
        · split
          · rfl
          · rfl
          · split <;> rfl

theorem subscribe_store (h : Host) (subscriptions : List Subscription) (body : SubscribeBody) :
    (subscribe h subscriptions body).2 =
      match (subscribe h subscriptions body).1 with
      | .created _ r => subscriptions ++ [r]
      | _ => subscriptions := by
  rcases subscribe_cases h subscriptions body with e | e | ⟨_, e⟩ | e | e | ⟨_, _, _, _, _, _, e⟩ <;>
    rw [e]

theorem range_ok_number (h : Host) (pauseDays : JValue)
    (hr : pauseDaysOutOfRange h pauseDays = .ok false) :
    toNumber h pauseDays = .ok .nan ∨
      ∃ q : ℚ, toNumber h pauseDays = .ok (.fin q) ∧ 1 ≤ q ∧ q ≤ 2 := by
  unfold pauseDaysOutOfRange at hr
  simp only [bind, Except.bind, pure, Except.pure] at hr
  cases hn : toNumber h pauseDays with
  | error e => rw [hn] at hr; cases hr
  | ok n =>
    rw [hn] at hr
    simp only at hr
    injection hr with hr
    cases n with
    | nan => left; rfl
    | fin q =>
      right
      simp [JSNum.lt] at hr
      exact ⟨q, rfl, hr.1, hr.2⟩
    | posInf => simp [JSNum.lt] at hr
    | negInf => simp [JSNum.lt] at hr

theorem pause_ok_number (h : Host) (subscriptions : List Subscription) (body : PauseBody)
    (p : PauseProjection) (hp : (pause h subscriptions body).1 = .ok p) :
    ∃ q : ℚ, toNumber h body.pauseDays = .ok (.fin q) ∧ 1 ≤ q ∧ q ≤ 2 := by
  obtain ⟨sub, t, _, _, _, hR, hP⟩ := pause_ok h subscriptions body p hp
  rcases range_ok_number h _ hR with hnan | hq
  · obtain ⟨sum, n, _, hn, _, _, _, hEnd, _, _⟩ := pauseProjection_ok h _ _ _ _ _ hP
    rw [hnan] at hn
    injection hn with hn
    subst hn
    simp [JSNum.mul, JSNum.add, getTime, newDateOfNumber, timeClip] at hEnd
  · exact hq

/-! ## Sequences of requests -/

theorem handle_store (h : Host) (subscriptions : List Subscription) (request : Request) :
    (handle h subscriptions request).2 =
      subscriptions ++ createdRecords [(handle h subscriptions request).1] := by
  cases request with
  | subscribe body =>
    show (subscribe h subscriptions body).2 = _
    rw [subscribe_store]
    show _ = subscriptions ++ createdRecords [.subscribe (subscribe h subscriptions body).1]
    cases (subscribe h subscriptions body).1 <;> simp [createdRecords]
  | list => simp [handle, listSubscriptions, createdRecords]
  | pause body =>
    show (pause h subscriptions body).2 = _
    rw [pause_store]
    simp [createdRecords]

theorem createdRecords_cons (r : Response) (rest : List Response) :
    createdRecords (r :: rest) = createdRecords [r] ++ createdRecords rest := by
  cases r with
  | subscribe resp => cases resp <;> simp [createdRecords]
  | list records => simp [createdRecords]
  | pause resp => simp [createdRecords]

theorem run_store (h : Host) (requests : List Request) (subscriptions : List Subscription) :
    (run h subscriptions requests).2 =
      subscriptions ++ createdRecords (run h subscriptions requests).1 := by
  induction requests generalizing subscriptions with
  | nil => simp [run, createdRecords]
  | cons r rest ih =>
    simp only [run]
    rw [ih, createdRecords_cons, handle_store h subscriptions r, List.append_assoc]

theorem strictEq_self (v : JValue) (hv : v.truthy = true) (hp : v.isObject = false) :
    v.strictEq v = true := by
  cases v with
  | undefined => cases hv
  | null => cases hv
  | bool b => simp [JValue.strictEq]
  | num n => cases n <;> simp_all [JValue.strictEq, JSNum.strictEq, JValue.truthy, JSNum.truthy]
  | str s => simp [JValue.strictEq]
  | arr items => cases hp
  | obj fields => cases hp

/-- The invariant of the array: every record is well formed, and no record is
strictly equal in `userId` to a later one. -/
theorem handle_invariant (h : Host) (subscriptions : List Subscription) (request : Request)
    (hWF : ∀ r ∈ subscriptions, r.WellFormed h)
    (hPair : subscriptions.Pairwise (fun a b => a.userId.strictEq b.userId = false)) :
    (∀ r ∈ (handle h subscriptions request).2, r.WellFormed h) ∧
      (handle h subscriptions request).2.Pairwise
        (fun a b => a.userId.strictEq b.userId = false) := by
  cases request with
  | list => exact ⟨hWF, hPair⟩
  | pause body =>
    show (∀ r ∈ (pause h subscriptions body).2, r.WellFormed h) ∧
      (pause h subscriptions body).2.Pairwise _
    rw [pause_store]
    exact ⟨hWF, hPair⟩
  | subscribe body =>
    show (∀ r ∈ (subscribe h subscriptions body).2, r.WellFormed h) ∧
      (subscribe h subscriptions body).2.Pairwise _
    rcases subscribe_cases h subscriptions body with
      e | e | ⟨_, e⟩ | e | e | ⟨t, days, hU, hFresh, ht, hPlan, e⟩
    · rw [e]; exact ⟨hWF, hPair⟩
    · rw [e]; exact ⟨hWF, hPair⟩
    · rw [e]; exact ⟨hWF, hPair⟩
    · rw [e]; exact ⟨hWF, hPair⟩
    · rw [e]; exact ⟨hWF, hPair⟩
    · rw [e]
      constructor
      · intro r hr
        rw [List.mem_append, List.mem_singleton] at hr
        rcases hr with hr | hr
        · exact hWF r hr
        · subst hr
          exact ⟨hU, rfl, rfl, t, days, rfl, ht, hPlan, rfl⟩
      · rw [List.pairwise_append]
        refine ⟨hPair, List.pairwise_singleton _ _, ?_⟩
        intro a ha b hb
        rw [List.mem_singleton] at hb
        subst hb
        exact hFresh a ha

theorem run_invariant (h : Host) (requests : List Request) (subscriptions : List Subscription)
    (hWF : ∀ r ∈ subscriptions, r.WellFormed h)
    (hPair : subscriptions.Pairwise (fun a b => a.userId.strictEq b.userId = false)) :
    (∀ r ∈ (run h subscriptions requests).2, r.WellFormed h) ∧
      (run h subscriptions requests).2.Pairwise
        (fun a b => a.userId.strictEq b.userId = false) := by
  induction requests generalizing subscriptions with
  | nil => exact ⟨hWF, hPair⟩
  | cons r rest ih =>
    obtain ⟨h1, h2⟩ := handle_invariant h subscriptions r hWF hPair
    exact ih _ h1 h2

theorem reachable_invariant (h : Host) (subscriptions : List Subscription)
    (hR : Reachable h subscriptions) :
    (∀ r ∈ subscriptions, r.WellFormed h) ∧
      subscriptions.Pairwise (fun a b => a.userId.strictEq b.userId = false) := by
  obtain ⟨requests, hrun⟩ := hR
  rw [← hrun]
  exact run_invariant h requests [] (by simp) List.Pairwise.nil

theorem instant_eq_some (x y : Int) (hxy : instant x = some y) : y = x := by
  unfold instant at hxy
  split_ifs at hxy
  injection hxy with hxy
  exact hxy.symm

/-! ## The calendar functions against their ECMAScript definitions -/

/-- `DayFromYear` is strictly increasing from one year to the next. -/
theorem dayFromYear_lt_succ (y : Int) : dayFromYear y < dayFromYear (y + 1) := by
  unfold dayFromYear; omega

/-- The year computed for a day contains it: `yearFromDay d` is a year `y` with
`DayFromYear(y) ≤ d < DayFromYear(y + 1)`. -/
theorem yearFromDay_spec (d : Int) :
    dayFromYear (yearFromDay d) ≤ d ∧ d < dayFromYear (yearFromDay d + 1) := by
  unfold yearFromDay
  simp only
  generalize hy : 1970 + d * 400 / 146097 = y
  have e1 : y - 1 + 1 = y := by omega
  split_ifs with h1 h2
  · rw [e1]; unfold dayFromYear at *; omega
  · unfold dayFromYear at *; omega
  · unfold dayFromYear at *; omega

/-- The day of the month is the day within the year counted from the first of
its month, and the day number is recovered from year, month and date. -/
theorem day_of_calendar_fields (t : Int) :
    dayFromYear (yearFromTime t)
        + daysBeforeMonth (leapDay (yearFromTime t)) (monthFromTime t)
        + dateFromTime t - 1 = day t := by
  unfold dateFromTime dayWithinYear
  omega

/-! ## The claims -/

/-- C1 (amended). For every host, store and Subscribe body with a truthy
`userId` and `date`, a `userId` strictly equal to no stored one, a date that
`new Date` turns into the valid time value `t`, and the plan "Elite" (24 days)
or "Premium" (48 days): the call answers 201 with the record made of the
caller's `userId` and plan, product "Milk", `startDate = t`,
`deliveryInterval = 2`, and as `endDate` the instant that many calendar days
after `t` on the local calendar of the host (same local time of day) when that
instant is within the range of time values, the invalid date otherwise; the
record is appended to the store.  Where the offset of local time from UTC is
the same at both ends, that instant is `t + days * 86400000`. -/
theorem subscribe_created_record (h : Host) (subscriptions : List Subscription)
    (body : SubscribeBody) (t days : Int)
    (hUser : body.userId.truthy = true) (hGiven : body.date.truthy = true)
    (hFresh : ∀ sub ∈ subscriptions, sub.userId.strictEq body.userId = false)
    (hDate : newDate h body.date = .ok (some t))
    (hPlan : (body.plan = .str "Elite" ∧ days = 24) ∨ (body.plan = .str "Premium" ∧ days = 48)) :
    subscribe h subscriptions body =
      (.created "Subscription created successfully."
          ⟨body.userId, "Milk", body.plan, some t,
            if |addLocalDays h t days| ≤ maxTime then some (addLocalDays h t days) else none,
            .fin 2⟩,
        subscriptions ++
          [⟨body.userId, "Milk", body.plan, some t,
            if |addLocalDays h t days| ≤ maxTime then some (addLocalDays h t days) else none,
            .fin 2⟩]) ∧
    (h.localTZA (localTime h t + days * msPerDay) false = h.localTZA t true →
      addLocalDays h t days = t + days * msPerDay) :=
  ⟨subscribe_eq_created h subscriptions body t days hUser hGiven hFresh hDate hPlan,
    addLocalDays_same_offset h t days⟩

/-- C1, worked examples.  In UTC: `userId "u1"`, plan "Elite", date
"2024-01-01" on the empty store gives the record with `endDate`
1706140800000, which is 2024-01-25 (month index 0); then `userId "u2"`, plan
"Premium", date "2023-12-20" gives `endDate` 1707177600000, which is
2024-02-06 (month index 1), 48 days later across the end of the year.  On New
York time: plan "Elite", date "2024-03-01" (19:00 on February 29, local time)
gives `endDate` 1711321200000, 19:00 on March 24 local time, which is 24 days
less one hour after `startDate`. -/
theorem subscribe_created_record_witness :
    subscribe refHost [] u1Elite =
        (.created "Subscription created successfully." u1Record, [u1Record]) ∧
      (yearFromTime 1706140800000, monthFromTime 1706140800000, dateFromTime 1706140800000)
        = (2024, 0, 25) ∧
      subscribe refHost [u1Record] u2Premium =
        (.created "Subscription created successfully." u2Record, [u1Record, u2Record]) ∧
      (yearFromTime 1707177600000, monthFromTime 1707177600000, dateFromTime 1707177600000)
        = (2024, 1, 6) ∧
      (subscribe springHost [] ⟨.str "u1", .str "Elite", .str "2024-03-01"⟩).1 =
        .created "Subscription created successfully."
          ⟨.str "u1", "Milk", .str "Elite", some 1709251200000, some 1711321200000, .fin 2⟩ ∧
      (1711321200000 : Int) = 1709251200000 + 24 * msPerDay - 3600000 :=
  ⟨((subscribe_created_record refHost [] u1Elite 1704067200000 24 (by decide) (by decide)
      (by simp) (by decide!) (Or.inl ⟨rfl, rfl⟩)).1).trans (by decide!), by decide,
    ((subscribe_created_record refHost [u1Record] u2Premium 1703030400000 48 (by decide)
      (by decide) (by decide) (by decide!) (Or.inr ⟨rfl, rfl⟩)).1).trans (by decide!),
    by decide,
    (congrArg Prod.fst (subscribe_created_record springHost []
      ⟨.str "u1", .str "Elite", .str "2024-03-01"⟩ 1709251200000 24 (by decide) (by decide)
      (by simp) (by decide!) (Or.inl ⟨rfl, rfl⟩)).1).trans (by decide!), by decide⟩

/-- C1, counterexample: a Subscribe call for the last day of the range of time
values, +275760-09-13, succeeds with 201, and the `endDate` of the returned
record is the invalid date, not the day 24 days after `startDate`. -/
theorem subscribe_last_day_counterexample :
    subscribe refHost [] lastDay =
        (.created "Subscription created successfully." lastDayRecord, [lastDayRecord]) ∧
      lastDayRecord.startDate = some 8640000000000000 ∧
      lastDayRecord.endDate ≠ some (8640000000000000 + 24 * msPerDay) := by
  decide!

/-- C2 (amended). For every host, store and Subscribe body with a truthy
`userId`, plan and date: (a) if some stored record has a `userId` strictly
equal (`===`) to the body's, the call fails with status 400 and "User already
has an active subscription.", whatever the plan and the date are, and the store
is unchanged; (b) consequently, when the `userId` is a string, number or
boolean and a first Subscribe with that `userId` has just succeeded, the call
fails with that same error. -/
theorem subscribe_duplicate_conflict (h : Host) (subscriptions : List Subscription)
    (body : SubscribeBody)
    (hUser : body.userId.truthy = true) (hPlan : body.plan.truthy = true)
    (hDate : body.date.truthy = true) :
    ((∃ sub ∈ subscriptions, sub.userId.strictEq body.userId = true) →
      subscribe h subscriptions body =
        (.failure 400 "User already has an active subscription.", subscriptions)) ∧
    (∀ (first : SubscribeBody) (message : String) (r : Subscription),
      first.userId = body.userId → body.userId.isObject = false →
      (subscribe h subscriptions first).1 = .created message r →
      subscribe h (subscribe h subscriptions first).2 body =
        (.failure 400 "User already has an active subscription.",
          (subscribe h subscriptions first).2)) := by
  refine ⟨subscribe_eq_duplicate h subscriptions body hUser hPlan hDate, ?_⟩
  intro first message r hSame hPrim hCreated
  apply subscribe_eq_duplicate h _ body hUser hPlan hDate
  rcases subscribe_cases h subscriptions first with
    e | e | ⟨_, e⟩ | e | e | ⟨t, days, _, _, _, _, e⟩
  · rw [e] at hCreated; cases hCreated
  · rw [e] at hCreated; cases hCreated
  · rw [e] at hCreated; cases hCreated
  · rw [e] at hCreated; cases hCreated
  · rw [e] at hCreated; cases hCreated
  · rw [e]
    refine ⟨_, List.mem_append_right _ (List.mem_singleton.mpr rfl), ?_⟩
    show first.userId.strictEq body.userId = true
    rw [hSame]
    exact strictEq_self _ hUser hPrim

/-- C2, worked example: with "u1" stored, a second Subscribe for "u1" with the
plan "Basic" and the date "not-a-date" gets the duplicate error, directly and
after the first call of the spec's example. -/
theorem subscribe_duplicate_conflict_witness :
    subscribe refHost [u1Record] ⟨.str "u1", .str "Basic", .str "not-a-date"⟩ =
        (.failure 400 "User already has an active subscription.", [u1Record]) ∧
      subscribe refHost (subscribe refHost [] u1Elite).2
          ⟨.str "u1", .str "Basic", .str "not-a-date"⟩ =
        (.failure 400 "User already has an active subscription.",
          (subscribe refHost [] u1Elite).2) :=
  ⟨(subscribe_duplicate_conflict refHost [u1Record] ⟨.str "u1", .str "Basic", .str "not-a-date"⟩
      (by decide) (by decide) (by decide)).1 ⟨u1Record, by simp, by decide⟩,
    (subscribe_duplicate_conflict refHost [] ⟨.str "u1", .str "Basic", .str "not-a-date"⟩
      (by decide) (by decide) (by decide)).2 u1Elite "Subscription created successfully."
      u1Record rfl rfl (by decide!)⟩

/-- C2, counterexample: with "u1" stored, a Subscribe for "u1" that supplies
the empty string as plan gets the required-fields error, not the duplicate
error. -/
theorem subscribe_duplicate_counterexample :
    subscribe refHost [u1Record] ⟨.str "u1", .str "", .str "2024-01-01"⟩ =
      (.failure 400 "User ID, plan, and date are required.", [u1Record]) := by
  decide!

/-- C3 (amended). In every state reachable from the empty array, no record is
strictly equal (`===`) in `userId` to a later record; two records carry the
same `userId` only when that `userId` is an array or an object. -/
theorem reachable_userIds_distinct (h : Host) (subscriptions : List Subscription)
    (hR : Reachable h subscriptions) :
    subscriptions.Pairwise (fun a b => a.userId.strictEq b.userId = false) ∧
      subscriptions.Pairwise (fun a b => a.userId = b.userId → a.userId.isObject = true) := by
  obtain ⟨hWF, hPair⟩ := reachable_invariant h subscriptions hR
  refine ⟨hPair, ?_⟩
  rw [List.pairwise_iff_forall_sublist] at hPair ⊢
  intro a b hab hEq
  have hne := hPair hab
  cases hObj : a.userId.isObject with
  | true => rfl
  | false =>
    have ha : a ∈ subscriptions := hab.subset (by simp)
    have hself := strictEq_self a.userId (hWF a ha).1 hObj
    rw [← hEq, hself] at hne
    cases hne

/-- C3, worked example: the store reached by the Subscribe calls of "u1" and
"u2" with a ListSubscriptions call in between. -/
theorem reachable_userIds_distinct_witness :
    [u1Record, u2Record].Pairwise (fun a b => a.userId.strictEq b.userId = false) ∧
      [u1Record, u2Record].Pairwise
        (fun a b => a.userId = b.userId → a.userId.isObject = true) :=
  reachable_userIds_distinct refHost [u1Record, u2Record]
    ⟨[.subscribe u1Elite, .list, .subscribe u2Premium], by decide!⟩

/-- C3, counterexample: two Subscribe requests whose `userId` is the JSON
object with no fields both succeed; the reachable store then holds two records
with the same `userId`. -/
theorem reachable_userIds_counterexample :
    Reachable refHost [objectRecord, objectRecord] ∧
      ¬ [objectRecord, objectRecord].Pairwise (fun a b => a.userId ≠ b.userId) :=
  ⟨⟨[.subscribe objectUser, .subscribe objectUser], by decide!⟩, by decide⟩

/-- C4. Starting from the empty array, after any sequence of requests the
response of `GET /subscriptions` is the list of the records returned by the
successful Subscribe calls of the sequence, in call order; in particular it has
as many records as there were successful calls. -/
theorem list_returns_created_records (h : Host) (requests : List Request) :
    (listSubscriptions (run h [] requests).2).1 = createdRecords (run h [] requests).1 ∧
      (listSubscriptions (run h [] requests).2).1.length
        = (createdRecords (run h [] requests).1).length := by
  have e : (listSubscriptions (run h [] requests).2).1
      = createdRecords (run h [] requests).1 := by
    show (run h [] requests).2 = _
    rw [run_store]
    simp
  exact ⟨e, by rw [e]⟩

/-- C5 (amended). For every host, store and ComputePause body with a truthy
`userId` and `pauseDate` and a `pauseDays` that is not `undefined`: if no
stored record is strictly equal in `userId` to the body's, the result is
status 404 with "Subscription not found.", whether or not `pauseDate` parses
and whatever `pauseDays` is; the store is unchanged. -/
theorem pause_unknown_user (h : Host) (subscriptions : List Subscription) (body : PauseBody)
    (hUser : body.userId.truthy = true) (hDate : body.pauseDate.truthy = true)
    (hDays : body.pauseDays ≠ .undefined)
    (hNone : ∀ sub ∈ subscriptions, sub.userId.strictEq body.userId = false) :
    pause h subscriptions body = (.failure 404 "Subscription not found.", subscriptions) :=
  pause_eq_notFound h subscriptions body hUser hDate hDays hNone

/-- C5, worked example: an unknown user with an unparseable `pauseDate` and
`pauseDays = 99` gets 404. -/
theorem pause_unknown_user_witness :
    pause refHost [u1Record] ⟨.str "ghost", .str "not-a-date", .num (.fin 99)⟩ =
      (.failure 404 "Subscription not found.", [u1Record]) :=
  pause_unknown_user refHost [u1Record] ⟨.str "ghost", .str "not-a-date", .num (.fin 99)⟩
    (by decide) (by decide) (by decide) (by decide)

/-- C5, counterexample: for an unknown user whose `pauseDate` is the empty
string, the result is the required-fields error with status 400, not 404. -/
theorem pause_unknown_user_counterexample :
    pause refHost [u1Record] ⟨.str "ghost", .str "", .num (.fin 99)⟩ =
      (.failure 400 "User ID, pauseDate, and pauseDays are required.", [u1Record]) := by
  decide!

/-- C6. For every host, every store with a record whose `userId` is strictly
equal to the truthy `userId` of the request, every truthy `pauseDate` that
`new Date` turns into a valid time value, and every integer `pauseDays`
below 1 or above 2 (0, 3 and every negative integer among them), ComputePause
fails with status 400 and the range message; in particular `pauseDays = 0`
passes the required-fields check and is rejected by the range check. -/
theorem pause_days_outside_range (h : Host) (subscriptions : List Subscription)
    (userId pauseDate : JValue) (t n : Int)
    (hUser : userId.truthy = true)
    (hFound : ∃ sub ∈ subscriptions, sub.userId.strictEq userId = true)
    (hGiven : pauseDate.truthy = true)
    (hDate : newDate h pauseDate = .ok (some t))
    (hRange : n < 1 ∨ 2 < n) :
    pause h subscriptions ⟨userId, pauseDate, .num (.fin n)⟩ =
      (.failure 400 "PauseDays must be between 1 and 2 days in a week.", subscriptions) := by
  obtain ⟨sub, hsub⟩ := find_some_of_present subscriptions userId hFound
  apply pause_eq_outOfRange h subscriptions ⟨userId, pauseDate, .num (.fin n)⟩ sub t hUser
    hGiven (by simp) hsub hDate
  show pauseDaysOutOfRange h (.num (.fin n)) = .ok true
  rw [pauseDaysOutOfRange_int]
  simp [hRange]

/-- C6, worked examples: `pauseDays = 0`, `pauseDays = 3` and `pauseDays = -1`
for the stored user "u1" and the date "2024-01-10" get the range error. -/
theorem pause_days_outside_range_witness :
    pause refHost [u1Record] ⟨.str "u1", .str "2024-01-10", .num (.fin (0 : Int))⟩ =
        (.failure 400 "PauseDays must be between 1 and 2 days in a week.", [u1Record]) ∧
      pause refHost [u1Record] ⟨.str "u1", .str "2024-01-10", .num (.fin (3 : Int))⟩ =
        (.failure 400 "PauseDays must be between 1 and 2 days in a week.", [u1Record]) ∧
      pause refHost [u1Record] ⟨.str "u1", .str "2024-01-10", .num (.fin (-1 : Int))⟩ =
        (.failure 400 "PauseDays must be between 1 and 2 days in a week.", [u1Record]) :=
  ⟨pause_days_outside_range refHost [u1Record] (.str "u1") (.str "2024-01-10") 1704844800000 0
      (by decide) ⟨u1Record, by simp, by decide⟩ (by decide) (by decide!) (by decide),
    pause_days_outside_range refHost [u1Record] (.str "u1") (.str "2024-01-10") 1704844800000 3
      (by decide) ⟨u1Record, by simp, by decide⟩ (by decide) (by decide!) (by decide),
    pause_days_outside_range refHost [u1Record] (.str "u1") (.str "2024-01-10") 1704844800000
      (-1) (by decide) ⟨u1Record, by simp, by decide⟩ (by decide) (by decide!) (by decide)⟩

/-- C7 (amended). For every host and store in which the lookup for the truthy
`userId` finds the record `sub` with the valid `endDate = e` and the integral
`deliveryInterval = k`, every truthy `pauseDate` that `new Date` turns into the
valid time value `t`, and `pauseDays` the number 1 or 2: provided the three
instants `t + pauseDays * 86400000`, `e` plus `pauseDays` calendar days and
`t` plus `k` calendar days lie within the range of time values, ComputePause
answers 200 with the caller's `userId`, the plan of `sub`,
`pauseStartDate = t`, `pauseEndDate = t + pauseDays * 86400000`,
`newEndDate` = `e` plus `pauseDays` days on the local calendar of the host and
`nextDeliveryDate` = `t` plus `k` days on that calendar, and leaves the store
unchanged.  On a host whose offset from UTC never changes the two calendar
additions are `e + pauseDays * 86400000` and `t + k * 86400000`. -/
theorem pause_projection_values (h : Host) (subscriptions : List Subscription)
    (userId pauseDate : JValue) (sub : Subscription) (t e n k : Int)
    (hUser : userId.truthy = true)
    (hFound : subscriptions.find? (fun s => s.userId.strictEq userId) = some sub)
    (hGiven : pauseDate.truthy = true)
    (hDate : newDate h pauseDate = .ok (some t))
    (hDays : n = 1 ∨ n = 2)
    (hEnd : sub.endDate = some e) (hEndValid : |e| ≤ maxTime)
    (hInterval : sub.deliveryInterval = .fin k)
    (hPauseEnd : |t + n * msPerDay| ≤ maxTime)
    (hNewEnd : |addLocalDays h e n| ≤ maxTime)
    (hNext : |addLocalDays h t k| ≤ maxTime) :
    pause h subscriptions ⟨userId, pauseDate, .num (.fin n)⟩ =
      (.ok ⟨userId, sub.plan, t, t + n * msPerDay, addLocalDays h e n, addLocalDays h t k⟩,
        subscriptions) ∧
    (∀ c : Int, (∀ u isUTC, h.localTZA u isUTC = c) →
      addLocalDays h e n = e + n * msPerDay ∧ addLocalDays h t k = t + k * msPerDay) := by
  refine ⟨?_, fun c hFixed => ⟨addLocalDays_fixed h c e n hFixed, addLocalDays_fixed h c t k hFixed⟩⟩
  apply pause_eq_projection h subscriptions ⟨userId, pauseDate, .num (.fin n)⟩ sub t _ hUser
    hGiven (by simp) hFound hDate
  · show pauseDaysOutOfRange h (.num (.fin n)) = .ok false
    rw [pauseDaysOutOfRange_int]
    rcases hDays with hn | hn <;> subst hn <;> rfl
  · exact pauseProjection_int h sub userId t e n k (newDate_range h _ t hDate) hEnd hEndValid
      hInterval hPauseEnd hNewEnd hNext

/-- C7, worked examples.  In UTC, the example of the spec: for the "u1"
subscription of 2024-01-01, `pauseDate "2024-01-10"` and `pauseDays = 2` give
`pauseEndDate` 2024-01-12, `newEndDate` 2024-01-27 and `nextDeliveryDate`
2024-01-12.  On New York time, `pauseDate "2024-03-09"` and `pauseDays = 2`
give `pauseEndDate` 1710115200000, two days of 24 hours after the start, and
`nextDeliveryDate` 1710111600000, one hour earlier: 19:00 local time two
calendar days later, across the change to daylight-saving time. -/
theorem pause_projection_values_witness :
    pause refHost [u1Record] ⟨.str "u1", .str "2024-01-10", .num (.fin (2 : Int))⟩ =
        (.ok ⟨.str "u1", .str "Elite", 1704844800000, 1705017600000, 1706313600000,
          1705017600000⟩, [u1Record]) ∧
      (yearFromTime 1705017600000, monthFromTime 1705017600000, dateFromTime 1705017600000)
        = (2024, 0, 12) ∧
      (yearFromTime 1706313600000, monthFromTime 1706313600000, dateFromTime 1706313600000)
        = (2024, 0, 27) ∧
      pause springHost [u1Record] ⟨.str "u1", .str "2024-03-09", .num (.fin (2 : Int))⟩ =
        (.ok ⟨.str "u1", .str "Elite", 1709942400000, 1710115200000, 1706313600000,
          1710111600000⟩, [u1Record]) :=
  ⟨((pause_projection_values refHost [u1Record] (.str "u1") (.str "2024-01-10") u1Record
      1704844800000 1706140800000 2 2 (by decide) (by decide!) (by decide) (by decide!)
      (by decide) rfl (by decide) rfl (by decide) (by decide) (by decide)).1).trans
      (by decide!),
    by decide, by decide,
    ((pause_projection_values springHost [u1Record] (.str "u1") (.str "2024-03-09") u1Record
      1709942400000 1706140800000 2 2 (by decide) (by decide!) (by decide) (by decide!)
      (by decide) rfl (by decide) rfl (by decide) (by decide) (by decide)).1).trans
      (by decide!)⟩

/-- C7, counterexample: for the stored user "u1", the parseable `pauseDate`
+275760-09-13 and `pauseDays = 1`, ComputePause does not answer 200: the
`pauseEndDate` is beyond the range of time values and `toISOString` raises a
`RangeError`. -/
theorem pause_projection_counterexample :
    newDate refHost (.str "+275760-09-13") = .ok (some 8640000000000000) ∧
      pause refHost [u1Record] ⟨.str "u1", .str "+275760-09-13", .num (.fin 1)⟩ =
        (.uncaught .rangeError, [u1Record]) := by
  decide!

/-- C8. ComputePause never changes the array: for every host, store and body,
successful or not, the array after the call is the array before the call; and
ListSubscriptions returns the array and leaves it as it is. -/
theorem pause_and_list_leave_store (h : Host) (subscriptions : List Subscription)
    (body : PauseBody) :
    (pause h subscriptions body).2 = subscriptions ∧
      listSubscriptions subscriptions = (subscriptions, subscriptions) :=
  ⟨pause_store h subscriptions body, rfl⟩

/-- C9. For every host, store and Subscribe body: when the call answers 201
with the record `r`, the new array is the old one with `r` appended; with every
other response the array is unchanged. -/
theorem subscribe_appends_or_keeps (h : Host) (subscriptions : List Subscription)
    (body : SubscribeBody) :
    (subscribe h subscriptions body).2 =
      match (subscribe h subscriptions body).1 with
      | .created _ r => subscriptions ++ [r]
      | _ => subscriptions :=
  subscribe_store h subscriptions body

/-- C10 (amended). Whenever ComputePause answers 200, `ToNumber(pauseDays)` is
a finite number between 1 and 2 inclusive. -/
theorem pause_accepted_days (h : Host) (subscriptions : List Subscription) (body : PauseBody)
    (p : PauseProjection) (hOk : (pause h subscriptions body).1 = .ok p) :
    ∃ q : ℚ, toNumber h body.pauseDays = .ok (.fin q) ∧ 1 ≤ q ∧ q ≤ 2 :=
  pause_ok_number h subscriptions body p hOk

/-- C10, worked example: the accepted request of the spec's example has
`pauseDays = 2`. -/
theorem pause_accepted_days_witness :
    ∃ q : ℚ, toNumber refHost (JValue.num (.fin 2)) = .ok (.fin q) ∧ 1 ≤ q ∧ q ≤ 2 :=
  pause_accepted_days refHost [u1Record] ⟨.str "u1", .str "2024-01-10", .num (.fin 2)⟩
    ⟨.str "u1", .str "Elite", 1704844800000, 1705017600000, 1706313600000, 1705017600000⟩
    (by decide!)

/-- C10, counterexample: ComputePause answers 200 when `pauseDays` is the
boolean `true`, when it is the number 1.5, and when it is the string "2". -/
theorem pause_accepted_days_counterexample :
    (pause refHost [u1Record] ⟨.str "u1", .str "2024-01-10", .bool true⟩).1 =
        .ok ⟨.str "u1", .str "Elite", 1704844800000, 1704931200000, 1706227200000,
          1705017600000⟩ ∧
      (pause refHost [u1Record] ⟨.str "u1", .str "2024-01-10", .num (.fin (3 / 2))⟩).1 =
        .ok ⟨.str "u1", .str "Elite", 1704844800000, 1704974400000, 1706227200000,
          1705017600000⟩ ∧
      (pause refHost [u1Record] ⟨.str "u1", .str "2024-01-10", .str "2"⟩).1.status = 200 := by
  decide!

/-- C11, the code at a failing input: for the stored user "u1", the date
"2024-01-10" and `pauseDays = "abc"`, which converts to NaN, the range check
of line 91 lets the request through and `toISOString` raises a `RangeError`
that no handler code catches; the answer is a 500, not one of the coded
responses. -/
theorem pause_text_days_uncaught :
    pauseDaysOutOfRange refHost (.str "abc") = .ok false ∧
      pause refHost [u1Record] ⟨.str "u1", .str "2024-01-10", .str "abc"⟩ =
        (.uncaught .rangeError, [u1Record]) ∧
      (pause refHost [u1Record] ⟨.str "u1", .str "2024-01-10", .str "abc"⟩).1.status = 500 := by
  decide!

/-- C12. For every host, truthy `userId` and non-empty string `d` that the
host parser does not turn into a time value: (a) on a store with no record
strictly equal in `userId`, Subscribe with any truthy plan and the date `d`
fails with status 400 and "Invalid date format."; (b) on a store with such a
record, ComputePause with the `pauseDate` `d` and any `pauseDays` other than
`undefined` fails with status 400 and "Invalid pauseDate format."; in both
cases the store is unchanged. -/
theorem malformed_date_rejected (h : Host) (subscriptions : List Subscription)
    (userId plan pauseDays : JValue) (d : String)
    (hUser : userId.truthy = true) (hNonEmpty : d ≠ "")
    (hBad : timeClip (h.dateParse d) = none) :
    (plan.truthy = true →
      (∀ sub ∈ subscriptions, sub.userId.strictEq userId = false) →
      subscribe h subscriptions ⟨userId, plan, .str d⟩ =
        (.failure 400 "Invalid date format.", subscriptions)) ∧
    (pauseDays ≠ .undefined →
      (∃ sub ∈ subscriptions, sub.userId.strictEq userId = true) →
      pause h subscriptions ⟨userId, .str d, pauseDays⟩ =
        (.failure 400 "Invalid pauseDate format.", subscriptions)) := by
  have hTruthy : (JValue.str d).truthy = true := by simp [JValue.truthy, hNonEmpty]
  have hNew : newDate h (.str d) = .ok none := by
    show Except.ok (timeClip (h.dateParse d)) = _
    rw [hBad]
  constructor
  · intro hPlan hFresh
    exact subscribe_eq_invalidDate h subscriptions ⟨userId, plan, .str d⟩ hUser hPlan hTruthy
      hFresh hNew
  · intro hDays hFound
    obtain ⟨sub, hsub⟩ := find_some_of_present subscriptions userId hFound
    exact pause_eq_invalidDate h subscriptions ⟨userId, .str d, pauseDays⟩ sub hUser hTruthy
      hDays hsub hNew

/-- C12, worked example: the date "not-a-date" for a new user "u2" with the
plan "Elite", and as `pauseDate` for the stored user "u1" with `pauseDays = 7`. -/
theorem malformed_date_rejected_witness :
    subscribe refHost [u1Record] ⟨.str "u2", .str "Elite", .str "not-a-date"⟩ =
        (.failure 400 "Invalid date format.", [u1Record]) ∧
      pause refHost [u1Record] ⟨.str "u1", .str "not-a-date", .num (.fin 7)⟩ =
        (.failure 400 "Invalid pauseDate format.", [u1Record]) :=
  ⟨(malformed_date_rejected refHost [u1Record] (.str "u2") (.str "Elite") .null "not-a-date"
      (by decide) (by decide) (by decide!)).1 (by decide) (by decide),
    (malformed_date_rejected refHost [u1Record] (.str "u1") .null (.num (.fin 7)) "not-a-date"
      (by decide) (by decide) (by decide!)).2 (by decide) ⟨u1Record, by simp, by decide⟩⟩

/-- C13, the code at a failing input: a Subscribe body with a new `userId`,
the plan "Elite" and, as date, a JSON object that has a field named
"toString".  All three fields are truthy and the date cannot be parsed, yet the
answer is not "Invalid date format.": `new Date(date)` raises a `TypeError`
before the `isNaN` check of line 32 is reached. -/
theorem subscribe_object_date_uncaught :
    subscribe refHost [] ⟨.str "u1", .str "Elite", .obj [("toString", .null)]⟩ =
        (.uncaught .typeError, []) ∧
      (subscribe refHost [] ⟨.str "u1", .str "Elite", .obj [("toString", .null)]⟩).1.status
        = 500 := by
  decide!

/-- C14, the code at a failing input: for the stored user "u1", a `pauseDate`
that is a JSON object with a field named "toString" and `pauseDays = 5`.  The
`pauseDate` cannot be parsed and `pauseDays` is above 2, yet the answer is
neither the invalid-pauseDate error nor the range error: `new Date(pauseDate)`
raises a `TypeError` at line 86.  Likewise `pauseDays = "three"` with a
parseable `pauseDate` ends in a `RangeError` instead of the range error. -/
theorem pause_object_date_uncaught :
    pause refHost [u1Record] ⟨.str "u1", .obj [("toString", .null)], .num (.fin 5)⟩ =
        (.uncaught .typeError, [u1Record]) ∧
      pause refHost [u1Record] ⟨.str "u1", .str "2024-01-10", .str "three"⟩ =
        (.uncaught .rangeError, [u1Record]) := by
  decide!

/-- C15 (amended). Every record of every array reachable from the empty one
has the product "Milk", the plan "Elite" or "Premium", `deliveryInterval = 2`,
a valid `startDate = t`, and as `endDate` the instant 24 calendar days (Elite)
or 48 calendar days (Premium) after `t` on the local calendar of the host when
that instant lies within the range of time values, the invalid date otherwise;
on a host whose offset from UTC never changes that instant is
`t + days * 86400000`. -/
theorem reachable_records_wellFormed (h : Host) (subscriptions : List Subscription)
    (hR : Reachable h subscriptions) :
    ∀ r ∈ subscriptions, r.product = "Milk" ∧ r.deliveryInterval = .fin 2 ∧
      ∃ t days : Int, r.startDate = some t ∧
        ((r.plan = .str "Elite" ∧ days = 24) ∨ (r.plan = .str "Premium" ∧ days = 48)) ∧
        r.endDate =
          (if |addLocalDays h t days| ≤ maxTime then some (addLocalDays h t days) else none) ∧
        (∀ c : Int, (∀ u isUTC, h.localTZA u isUTC = c) →
          addLocalDays h t days = t + days * msPerDay) := by
  intro r hr
  obtain ⟨_, hProduct, hInterval, t, days, hStart, _, hPlan, hEnd⟩ :=
    (reachable_invariant h subscriptions hR).1 r hr
  exact ⟨hProduct, hInterval, t, days, hStart, hPlan, hEnd,
    fun c hFixed => addLocalDays_fixed h c t days hFixed⟩

/-- C15, worked examples: the Premium record of "u2" in the store reached in
UTC by the Subscribe calls of "u1" and "u2"; and the Elite record stored on New
York time for the date "2024-03-01", whose `endDate` is 24 calendar days,
which is 24 days less one hour, after its `startDate`. -/
theorem reachable_records_wellFormed_witness :
    (u2Record.product = "Milk" ∧ u2Record.deliveryInterval = .fin 2 ∧
      ∃ t days : Int, u2Record.startDate = some t ∧
        ((u2Record.plan = .str "Elite" ∧ days = 24) ∨
          (u2Record.plan = .str "Premium" ∧ days = 48)) ∧
        u2Record.endDate =
          (if |addLocalDays refHost t days| ≤ maxTime then some (addLocalDays refHost t days)
            else none) ∧
        (∀ c : Int, (∀ u isUTC, refHost.localTZA u isUTC = c) →
          addLocalDays refHost t days = t + days * msPerDay)) ∧
      Reachable springHost
        [⟨.str "u1", "Milk", .str "Elite", some 1709251200000, some 1711321200000, .fin 2⟩] ∧
      addLocalDays springHost 1709251200000 24 = 1711321200000 :=
  ⟨reachable_records_wellFormed refHost [u1Record, u2Record]
      ⟨[.subscribe u1Elite, .subscribe u2Premium], by decide!⟩
      u2Record (List.mem_cons_of_mem _ (List.mem_singleton.mpr rfl)),
    ⟨[.subscribe ⟨.str "u1", .str "Elite", .str "2024-03-01"⟩], by decide!⟩, by decide⟩

/-- C15, counterexample: the store reached by one Subscribe for the last day
of the range of time values holds an Elite record whose `endDate` is not its
`startDate` plus 24 days. -/
theorem reachable_records_counterexample :
    Reachable refHost [lastDayRecord] ∧ lastDayRecord.plan = .str "Elite" ∧
      lastDayRecord.startDate = some 8640000000000000 ∧
      lastDayRecord.endDate ≠ some (8640000000000000 + 24 * msPerDay) :=
  ⟨⟨[.subscribe lastDay], by decide!⟩, by decide!⟩

/-- C16 (amended). On a host whose local time is at a fixed offset `c` from
UTC, for every valid time value `t` and every integer `n`: (a) incrementing
the day of the month by `n` (`getNextDeliveryDate`) and adding
`n * 24 * 60 * 60 * 1000` ms give the same `Date`; (b) for every ComputePause
on a reachable store that answers 200 with `pauseStartDate = t` and whose
`pauseDays` converts to the integer `n`, `pauseEndDate = t + n * 86400000`,
which is the `Date` that the day-of-month increment by `n` gives, and when
`n = 2` it equals `nextDeliveryDate`. -/
theorem day_additions_agree (h : Host) (c t n : Int)
    (hFixed : ∀ u isUTC, h.localTZA u isUTC = c) (hValid : |t| ≤ maxTime) :
    getNextDeliveryDate h (some t) (.fin n) =
        newDateOfNumber ((getTime (some t)).add
          (((((JSNum.fin n).mul (.fin 24)).mul (.fin 60)).mul (.fin 60)).mul (.fin 1000))) ∧
    (∀ (subscriptions : List Subscription) (body : PauseBody) (p : PauseProjection),
      Reachable h subscriptions → (pause h subscriptions body).1 = .ok p →
      p.pauseStartDate = t → toNumber h body.pauseDays = .ok (.fin n) →
      p.pauseEndDate = t + n * msPerDay ∧
        getNextDeliveryDate h (some t) (.fin n) = some p.pauseEndDate ∧
        (n = 2 → p.pauseEndDate = p.nextDeliveryDate)) := by
  have hNext : ∀ k : Int, getNextDeliveryDate h (some t) (.fin k) = instant (t + k * msPerDay) := by
    intro k
    rw [getNextDeliveryDate_int h t k hValid, addLocalDays_fixed h c t k hFixed]
  constructor
  · rw [hNext n, pauseEnd_int]
  · intro subscriptions body p hR hOk hStart hNum
    obtain ⟨sub, t0, _, hFind, _, _, hProj⟩ := pause_ok h subscriptions body p hOk
    obtain ⟨sum, m, _, hm, _, _, hs, hEnd, _, hNextDate⟩ :=
      pauseProjection_ok h _ _ _ _ _ hProj
    rw [hNum] at hm
    injection hm with hm
    subst hm
    rw [hs, hStart] at hEnd hNextDate
    rw [pauseEnd_int] at hEnd
    have hSub : sub ∈ subscriptions := List.mem_of_find?_eq_some hFind
    have hInterval := ((reachable_invariant h subscriptions hR).1 sub hSub).2.2.1
    rw [hInterval] at hNextDate
    have hNext2 : getNextDeliveryDate h (some t) (.fin ((2 : Int) : ℚ))
        = some p.nextDeliveryDate := by
      simpa using hNextDate
    rw [hNext 2] at hNext2
    have e1 := instant_eq_some _ _ hEnd
    have e2 := instant_eq_some _ _ hNext2
    refine ⟨e1, ?_, ?_⟩
    · rw [hNext n, hEnd]
    · intro hn
      rw [e1, e2, hn]

/-- C16, worked example: ten days into 2024 in UTC, two days added either way
give 2024-01-12, and the ComputePause example of the spec returns that instant
as `pauseEndDate` and as `nextDeliveryDate`. -/
theorem day_additions_agree_witness :
    getNextDeliveryDate refHost (some 1704844800000) (.fin (2 : Int)) = some 1705017600000 ∧
      newDateOfNumber ((getTime (some 1704844800000)).add
          (((((JSNum.fin (2 : Int)).mul (.fin 24)).mul (.fin 60)).mul (.fin 60)).mul
            (.fin 1000))) = some 1705017600000 ∧
      (pause refHost [u1Record] ⟨.str "u1", .str "2024-01-10", .num (.fin (2 : Int))⟩).1 =
        .ok ⟨.str "u1", .str "Elite", 1704844800000, 1705017600000, 1706313600000,
          1705017600000⟩ ∧
      (1705017600000 : Int) = 1704844800000 + 2 * msPerDay :=
  ⟨((day_additions_agree refHost 0 1704844800000 2 (fun _ _ => rfl) (by decide)).1).trans
      (by decide!),
    by decide!, by decide!,
    ((day_additions_agree refHost 0 1704844800000 2 (fun _ _ => rfl) (by decide)).2
      [u1Record] ⟨.str "u1", .str "2024-01-10", .num (.fin (2 : Int))⟩
      ⟨.str "u1", .str "Elite", 1704844800000, 1705017600000, 1706313600000, 1705017600000⟩
      ⟨[.subscribe u1Elite], by decide!⟩ (by decide!) rfl rfl).1⟩

/-- C16, counterexample: on the reachable store of the spec's example,
ComputePause with `pauseDays = 1.5` answers 200 with a `pauseEndDate` one and a
half days after `pauseStartDate`, while the day-of-month increment by 1.5 gives
the instant one day after it. -/
theorem day_additions_counterexample :
    Reachable refHost [u1Record] ∧
      (pause refHost [u1Record] ⟨.str "u1", .str "2024-01-10", .num (.fin (3 / 2))⟩).1 =
        .ok ⟨.str "u1", .str "Elite", 1704844800000, 1704974400000, 1706227200000,
          1705017600000⟩ ∧
      getNextDeliveryDate refHost (some 1704844800000) (.fin (3 / 2)) = some 1704931200000 :=
  ⟨⟨[.subscribe u1Elite], by decide!⟩, by decide!⟩

end MilkSubscription
